import Mathlib

set_option maxRecDepth 4000000

/-
  Verification development for the Simple File System (sfs_api.c).

  The C source is shallowly embedded: every function of the source is
  translated into a Lean definition of the same name, operating on an
  explicit state record in place of the mutable globals.  C `int` values
  are modelled as `Int` with truncating division (`Int.tdiv` / `Int.tmod`),
  matching C semantics.  Fixed-size C arrays are modelled as lists of the
  corresponding length.  The block device is modelled as a map from block
  id to block content; the per-table persistence helpers
  (`flush_i_node_table`, `flush_root_directory_table`, `flush_bitmap`)
  mirror the cached tables into dedicated on-disk fields, abstracting the
  byte-level serialization, while data blocks, indirect blocks and the
  superblock are kept at byte/word level because the code reads them back.

  Modelling conventions, noted where they matter:
  - Reads of memory the C program leaves uninitialized (the tail of the
    local 1024-int indirect buffer beyond the one loaded block, and the
    tail of a freshly written partial data block) are modelled as 0.
  - Out-of-range block ids passed to the bitmap helpers (the source calls
    bitmap_occupy_a_block with -1, which is undefined behaviour in C) are
    modelled as leaving the bitmap unchanged.
-/

namespace SFS

/-- MAX_FILE_NAME_LENGTH from the source. -/
def MAX_FILE_NAME_LENGTH : Int := 16

/-- MAX_FILE_EXTENSION_LENGTH from the source. -/
def MAX_FILE_EXTENSION_LENGTH : Int := 3

/-- FILE_SYSTEM_SIZE: total number of blocks of the device. -/
def FILE_SYSTEM_SIZE : Int := 1024

/-- FILE_SYSTEM_BLOCK_SIZE: bytes per block. -/
def FILE_SYSTEM_BLOCK_SIZE : Int := 1024

/-- NUM_OF_I_NODES from the source. -/
def NUM_OF_I_NODES : Int := 200

/-- NUM_OF_FILES = NUM_OF_I_NODES - 1 = 199. -/
def NUM_OF_FILES : Int := NUM_OF_I_NODES - 1

/-- sizeof(i_node) in C: 4 ints + size + 12 direct pointers + indirect, 4 bytes each = 72. -/
def SIZEOF_I_NODE : Int := 72

/-- sizeof(directory_entry) in C: one int plus a 20-byte name buffer = 24. -/
def SIZEOF_DIRECTORY_ENTRY : Int := 24

/-- The i_node struct of the source. `direct_pointers` always has 12 entries. -/
structure i_node where
  mode : Int
  link_count : Int
  uid : Int
  gid : Int
  size : Int
  direct_pointers : List Int
  indirect_pointer : Int
deriving DecidableEq, Repr

/-- The directory_entry struct of the source.  The fixed 20-char name buffer
holding a NUL-terminated string is modelled as a Lean `String`. -/
structure directory_entry where
  i_node_id : Int
  file_name : String
deriving DecidableEq, Repr

/-- The fdt_entry struct of the source (one open-file-table slot). -/
structure fdt_entry where
  i_node_idx : Int
  read_write_pointer : Int
deriving DecidableEq, Repr

/-- Content of one device block.  Data blocks and the superblock hold bytes
(as a function from byte offset to byte value); an indirect block holds the
256 block pointers that fit in one 1024-byte block. -/
inductive BlockContent where
  | bytes (f : Nat → Int)
  | ints (l : List Int)

/-- Viewing a block as raw bytes.  Reading an indirect block as data bytes
would reinterpret serialized ints; no theorem below exercises that path, so
it is modelled as zeros. -/
def blockBytes : BlockContent → (Nat → Int)
  | .bytes f => f
  | .ints _ => fun _ => 0

/-- Viewing a block as an array of 256 block pointers.  Reading a byte-level
block as an indirect block is likewise modelled as zeros. -/
def blockInts : BlockContent → List Int
  | .ints l => l
  | .bytes _ => List.replicate 256 0

/-- The local `int indirect_block[1024]` buffer right after
`read_blocks(ptr, 1, indirect_block)`: one block = 1024 bytes = 256 ints are
actually loaded, the remaining 768 ints are uninitialized C stack memory,
modelled here as 0. -/
def indirect_buffer (c : BlockContent) : List Int :=
  blockInts c ++ List.replicate 768 0

/-- The whole mutable state of the program: the cached tables (the C
globals), the block device, the persisted mirrors of the tables, and the
directory-walk counter. -/
structure SfsState where
  g_inode_table : List i_node
  g_root_directory_table : List directory_entry
  g_fdt : List fdt_entry
  g_bitmap : List Bool
  disk : Int → BlockContent
  disk_inode_table : List i_node
  disk_root_directory_table : List directory_entry
  disk_bitmap : List Bool
  root_file_counter : Int

/-- Default inode used for out-of-range list reads (never hit by in-range code paths). -/
def default_inode : i_node := ⟨0, 0, 0, 0, 0, List.replicate 12 0, 0⟩

/-- Default directory entry for out-of-range list reads. -/
def default_dir_entry : directory_entry := ⟨-1, ""⟩

/-- Default fdt entry for out-of-range list reads. -/
def default_fdt_entry : fdt_entry := ⟨-1, -1⟩

/-- calculate_block_length: number of blocks needed for `file_size` bytes,
with C truncating division and remainder. -/
def calculate_block_length (file_size : Int) : Int :=
  file_size.tdiv FILE_SYSTEM_BLOCK_SIZE +
    (if file_size.tmod FILE_SYSTEM_BLOCK_SIZE > 0 then 1 else 0)

/-- min of the source. -/
def cmin (a b : Int) : Int := if a ≤ b then a else b

/-- max of the source. -/
def cmax (a b : Int) : Int := if a ≥ b then a else b

/-- bitmap_is_block_free: bit of `block_id` in the bitmap; true means free.
The C code indexes `g_bitmap[block_id / 8]` bit `block_id % 8`, i.e. exactly
bit number `block_id`; all call sites use 0 <= block_id < 1024. -/
def bitmap_is_block_free (bm : List Bool) (block_id : Int) : Bool :=
  if 0 ≤ block_id then bm.getD block_id.toNat false else false

/-- bitmap_free_a_block: set the bit (mark the block free).  A negative id
(undefined behaviour in C) leaves the bitmap unchanged. -/
def bitmap_free_a_block (bm : List Bool) (block_id : Int) : List Bool :=
  if 0 ≤ block_id then bm.set block_id.toNat true else bm

/-- bitmap_occupy_a_block: clear the bit (mark the block occupied).  A
negative id (undefined behaviour in C) leaves the bitmap unchanged. -/
def bitmap_occupy_a_block (bm : List Bool) (block_id : Int) : List Bool :=
  if 0 ≤ block_id then bm.set block_id.toNat false else bm

/-- bitmap_find_first_available_block: linear scan from block 0 for a free
bit, -1 if none.  The bitmap list has exactly FILE_SYSTEM_SIZE entries, so
scanning the list is the scan of the source loop. -/
def bitmap_find_first_available_block (bm : List Bool) : Int :=
  match bm.findIdx? (fun b => b) with
  | some i => (i : Int)
  | none => -1

/-- flush_i_node_table: persist the cached inode table (serialization
abstracted to a table mirror). -/
def flush_i_node_table (s : SfsState) : SfsState :=
  { s with disk_inode_table := s.g_inode_table }

/-- flush_root_directory_table: persist the cached directory table. -/
def flush_root_directory_table (s : SfsState) : SfsState :=
  { s with disk_root_directory_table := s.g_root_directory_table }

/-- flush_bitmap: persist the cached bitmap. -/
def flush_bitmap (s : SfsState) : SfsState :=
  { s with disk_bitmap := s.g_bitmap }

/-- root_get_directory_entry: index of the first non-empty directory entry
with the given name, none if absent.  (The C function returns a pointer
into the table; the index plays that role.) -/
def root_get_directory_entry (root : List directory_entry) (filename : String) : Option Nat :=
  root.findIdx? (fun e => e.i_node_id != -1 && e.file_name == filename)

/-- root_get_directory_entry_via_inode: index of the first directory entry
whose inode id equals `inode_idx` (no emptiness filter, as in the source). -/
def root_get_directory_entry_via_inode (root : List directory_entry) (inode_idx : Int) : Option Nat :=
  root.findIdx? (fun e => e.i_node_id == inode_idx)

/-- root_count_number_of_files: number of non-empty directory entries. -/
def root_count_number_of_files (root : List directory_entry) : Int :=
  ((root.filter (fun e => e.i_node_id != -1)).length : Int)

/-- Loop of root_get_ith_file: walks the table with a counter of non-empty
entries seen; when the counter hits `i` at some position j, the source
returns `&g_root_directory_table[i]` — the entry at index `i`, not `j`
(reproduced faithfully here via the captured full table). -/
def root_get_ith_file_go (full : List directory_entry) (i : Int) :
    List directory_entry → Int → Option directory_entry
  | [], _ => none
  | e :: rest, count =>
    if e.i_node_id ≠ -1 then
      if count = i then some (full.getD i.toNat default_dir_entry)
      else root_get_ith_file_go full i rest (count + 1)
    else root_get_ith_file_go full i rest count

/-- root_get_ith_file of the source. -/
def root_get_ith_file (root : List directory_entry) (i : Int) : Option directory_entry :=
  root_get_ith_file_go root i root 0

/-- root_get_first_available_directory_entry: index of the first empty
directory slot, -1 if the table is full. -/
def root_get_first_available_directory_entry (root : List directory_entry) : Int :=
  match root.findIdx? (fun e => e.i_node_id == -1) with
  | some i => (i : Int)
  | none => -1

/-- inode_tab_get_first_available_entry: index of the first inode whose size
is the free sentinel -1, or -1 if none. -/
def inode_tab_get_first_available_entry (tab : List i_node) : Int :=
  match tab.findIdx? (fun nd => nd.size == -1) with
  | some i => (i : Int)
  | none => -1

/-- inode_get_block_id_by_offset: resolve a byte offset inside a file to the
block id holding it; -1 if the offset is at or beyond the last block implied
by the file size. -/
def inode_get_block_id_by_offset (disk : Int → BlockContent) (node : i_node) (loc : Int) : Int :=
  if calculate_block_length node.size * FILE_SYSTEM_BLOCK_SIZE ≤ loc then -1
  else if loc < 12 * FILE_SYSTEM_BLOCK_SIZE then
    node.direct_pointers.getD (loc.tdiv FILE_SYSTEM_BLOCK_SIZE).toNat 0
  else
    (indirect_buffer (disk node.indirect_pointer)).getD
      ((loc - 12 * FILE_SYSTEM_BLOCK_SIZE).tdiv FILE_SYSTEM_BLOCK_SIZE).toNat 0

/-- The scan of inode_assign_new_block over the loaded indirect buffer:
`for (i = 0; i < 1023 && indirect_block[i+1] != -1; ++i);` — the final value
of i: the first j with buffer[j+1] = -1, or 1023 if none. -/
def indirect_scan (l : List Int) : Nat :=
  match ((l.drop 1).take 1023).findIdx? (fun v => v == -1) with
  | some j => j
  | none => 1023

/-- inode_assign_new_block on the inode at table index `idx`: allocate the
first free block and hang it off the first free direct slot, else off the
indirect block (creating the indirect block on first use).  Returns the new
state and the allocated block id (-1 on failure).  Faithful details: the
bitmap bit is occupied before the -1 check; the direct-slot path returns
without flushing; the indirect write persists only the first 256 ints of
the local buffer; on a full indirect block the function returns -1 with the
initially allocated block left marked occupied. -/
def inode_assign_new_block (s : SfsState) (idx : Nat) : SfsState × Int :=
  let node := s.g_inode_table.getD idx default_inode
  let vac_block := bitmap_find_first_available_block s.g_bitmap
  let s1 : SfsState := { s with g_bitmap := bitmap_occupy_a_block s.g_bitmap vac_block }
  if vac_block = -1 then (s1, -1)
  else
    match node.direct_pointers.findIdx? (fun p => p == -1) with
    | some i =>
      let node1 : i_node := { node with direct_pointers := node.direct_pointers.set i vac_block }
      ({ s1 with g_inode_table := s1.g_inode_table.set idx node1 }, vac_block)
    | none =>
      if node.indirect_pointer = -1 then
        let ind := bitmap_find_first_available_block s1.g_bitmap
        let s2 : SfsState := { s1 with g_bitmap := bitmap_occupy_a_block s1.g_bitmap ind }
        let node1 : i_node := { node with indirect_pointer := ind }
        let buf := (List.replicate 1024 (-1 : Int)).set 0 vac_block
        let s3 : SfsState := { s2 with
          g_inode_table := s2.g_inode_table.set idx node1,
          disk := Function.update s2.disk ind (.ints (buf.take 256)) }
        ((flush_i_node_table (flush_bitmap s3)), vac_block)
      else
        let buf := indirect_buffer (s1.disk node.indirect_pointer)
        let i := indirect_scan buf
        if i = 1023 then (s1, -1)
        else
          let buf1 := buf.set (i + 1) vac_block
          let s3 : SfsState := { s1 with
            disk := Function.update s1.disk node.indirect_pointer (.ints (buf1.take 256)) }
          ((flush_i_node_table (flush_bitmap s3)), vac_block)

/-- Helper for inode_reset: free blocks listed in a pointer array until the
first -1 sentinel (the source loops with condition `ptr[i] != -1`). -/
def free_prefix_blocks (bm : List Bool) : List Int → List Bool
  | [] => bm
  | b :: rest =>
    if b = -1 then bm else free_prefix_blocks (bitmap_free_a_block bm b) rest

/-- inode_reset: the source copies the inode out of the table by value
(`i_node node = g_inode_table[i_node_id];`), mutates only that local copy,
and never writes it back — so the cached inode table is left unchanged, and
only the bitmap (a global, mutated through real block ids) and the flushes
take effect.  The indirect block itself is never freed. -/
def inode_reset (s : SfsState) (i_node_id : Int) : SfsState :=
  let node := s.g_inode_table.getD i_node_id.toNat default_inode
  let bm1 := free_prefix_blocks s.g_bitmap node.direct_pointers
  let bm2 :=
    if node.indirect_pointer ≠ -1 then
      free_prefix_blocks bm1 (indirect_buffer (s.disk node.indirect_pointer))
    else bm1
  flush_i_node_table (flush_bitmap { s with g_bitmap := bm2 })

/-- fdt_get_first_available_entry: first closed slot of the open-file table,
-1 if full. -/
def fdt_get_first_available_entry (fdt : List fdt_entry) : Int :=
  match fdt.findIdx? (fun e => e.i_node_idx == -1) with
  | some i => (i : Int)
  | none => -1

/-- fdt_get_fd_by_filename: scan the open-file table; for each open slot,
look up the directory entry of its inode and compare names.  When the inode
has no directory entry the C code dereferences NULL; that path is modelled
as a non-match and is not reachable in the sequences considered here. -/
def fdt_get_fd_by_filename (root : List directory_entry) (fdt : List fdt_entry)
    (filename : String) : Int :=
  match fdt.findIdx? (fun e =>
    e.i_node_idx != -1 &&
      (match root_get_directory_entry_via_inode root e.i_node_idx with
       | some j => (root.getD j default_dir_entry).file_name == filename
       | none => false)) with
  | some i => (i : Int)
  | none => -1

/-- I_NODE_TABLE_START of the source. -/
def I_NODE_TABLE_START : Int := 1

/-- I_NODE_TABLE_LENGTH as computed in mksfs: blocks for 200 inodes of 72 bytes. -/
def I_NODE_TABLE_LENGTH : Int := calculate_block_length (NUM_OF_I_NODES * SIZEOF_I_NODE)

/-- ROOT_DIRECTORY_START as computed in mksfs. -/
def ROOT_DIRECTORY_START : Int := I_NODE_TABLE_START + I_NODE_TABLE_LENGTH

/-- ROOT_DIRECTORY_LENGTH as computed in mksfs: blocks for 199 entries of 24 bytes. -/
def ROOT_DIRECTORY_LENGTH : Int := calculate_block_length (NUM_OF_FILES * SIZEOF_DIRECTORY_ENTRY)

/-- DATA_BLOCK_START as computed in mksfs. -/
def DATA_BLOCK_START : Int := ROOT_DIRECTORY_START + ROOT_DIRECTORY_LENGTH

/-- BITMAP_LENGTH as computed in mksfs (flag 1): blocks for ceil(199/8) bitmap bytes. -/
def BITMAP_LENGTH : Int :=
  calculate_block_length (NUM_OF_FILES.tdiv 8 + (if NUM_OF_FILES.tmod 8 > 0 then 1 else 0))

/-- BITMAP_START as computed in mksfs. -/
def BITMAP_START : Int := FILE_SYSTEM_SIZE - BITMAP_LENGTH

/-- DATA_BLOCK_LENGTH as computed in mksfs. -/
def DATA_BLOCK_LENGTH : Int := BITMAP_START - DATA_BLOCK_START

/-- Byte k (little endian) of a nonnegative 32-bit int, as stored on disk. -/
def int_le_byte (v : Int) (k : Nat) : Int :=
  ((v.toNat / 256 ^ k) % 256 : Nat)

/-- The byte image of the superblock written by mksfs: the six struct fields
(magic 260917301, block size 1024, device size 1024, inode table length 15,
inode count 200, root directory start 16) serialized as consecutive
little-endian ints, with the rest of the block zeroed by
write_data_to_a_buffer. -/
def superblock_bytes : Nat → Int := fun i =>
  if i < 4 then int_le_byte 260917301 i
  else if i < 8 then int_le_byte 1024 (i - 4)
  else if i < 12 then int_le_byte 1024 (i - 8)
  else if i < 16 then int_le_byte 15 (i - 12)
  else if i < 20 then int_le_byte 200 (i - 16)
  else if i < 24 then int_le_byte 16 (i - 20)
  else 0

/-- An inode as initialized by the mksfs loop. -/
def fresh_inode : i_node :=
  ⟨0x777, 0, -1, -1, -1, List.replicate 12 (-1), -1⟩

/-- The root inode after mksfs: size = 199 * 24 bytes, direct pointers 0..4
pointing at the directory region blocks 16..20. -/
def root_inode : i_node :=
  ⟨0x777, 0, -1, -1, NUM_OF_FILES * SIZEOF_DIRECTORY_ENTRY,
    [16, 17, 18, 19, 20, -1, -1, -1, -1, -1, -1, -1], -1⟩

/-- The C globals before main runs: zero-initialized.  In particular every
directory entry holds inode id 0 and an all-zero (empty) name. -/
def init_globals : SfsState :=
  { g_inode_table := List.replicate 200 ⟨0, 0, 0, 0, 0, List.replicate 12 0, 0⟩
    g_root_directory_table := List.replicate 199 ⟨0, ""⟩
    g_fdt := List.replicate 199 ⟨0, 0⟩
    g_bitmap := List.replicate 1024 false
    disk := fun _ => .bytes (fun _ => 0)
    disk_inode_table := []
    disk_root_directory_table := []
    disk_bitmap := []
    root_file_counter := 0 }

/-- The fresh bitmap written by mksfs: every bit set free, then blocks
[0, DATA_BLOCK_START) and [BITMAP_START, 1024) occupied. -/
def mksfs_fresh_bitmap : List Bool :=
  let bm := List.replicate 1024 true
  let bm := (List.range 21).foldl (fun b i => bitmap_occupy_a_block b (i : Int)) bm
  (List.range' 1023 1).foldl (fun b i => bitmap_occupy_a_block b (i : Int)) bm

/-- mksfs.  flag = 1 formats a fresh device: zeroed disk, superblock in
block 0, all 200 inodes reset, root inode set up, the first
NUM_OF_FILES - 1 = 198 directory slots cleared (the last slot, index 198,
is left as it was — on a first format it keeps its zero-initialized value),
bitmap initialized, open-file table cleared.  flag = 0 reloads the persisted
tables and clears the open-file table. -/
def mksfs (s : SfsState) (flag : Int) : SfsState :=
  if flag = 1 then
    let s1 : SfsState := { s with disk := fun _ => .bytes (fun _ => 0) }
    let s2 : SfsState := { s1 with
      disk := Function.update s1.disk 0 (.bytes superblock_bytes) }
    let inodes := (List.replicate 200 fresh_inode).set 0 root_inode
    let s3 := flush_i_node_table { s2 with g_inode_table := inodes }
    let dir := (List.replicate 198 (⟨-1, ""⟩ : directory_entry)) ++
      [s.g_root_directory_table.getD 198 default_dir_entry]
    let s4 := flush_root_directory_table { s3 with g_root_directory_table := dir }
    let s5 := flush_bitmap { s4 with g_bitmap := mksfs_fresh_bitmap }
    { s5 with g_fdt := List.replicate 199 ⟨-1, -1⟩ }
  else
    { s with
      g_inode_table := s.disk_inode_table
      g_root_directory_table := s.disk_root_directory_table
      g_bitmap := s.disk_bitmap
      g_fdt := List.replicate 199 ⟨-1, -1⟩ }

/-- sfs_getnextfilename.  The copy of the name into the caller buffer
(memcpy of strlen bytes) is modelled by returning the name string together
with the status code. -/
def sfs_getnextfilename (s : SfsState) : SfsState × Int × String :=
  let count_of_files := root_count_number_of_files s.g_root_directory_table
  if count_of_files = 0 then (s, -1, "")
  else if s.root_file_counter = count_of_files then
    let e := (root_get_ith_file s.g_root_directory_table 0).getD default_dir_entry
    ({ s with root_file_counter := 0 }, 1, e.file_name)
  else
    let e := (root_get_ith_file s.g_root_directory_table s.root_file_counter).getD default_dir_entry
    ({ s with root_file_counter := s.root_file_counter + 1 }, 1, e.file_name)

/-- sfs_getfilesize: -1 when the name is absent, else the size recorded in
the inode referenced by its directory entry. -/
def sfs_getfilesize (s : SfsState) (filename : String) : Int :=
  match root_get_directory_entry s.g_root_directory_table filename with
  | none => -1
  | some j =>
    (s.g_inode_table.getD
      ((s.g_root_directory_table.getD j default_dir_entry).i_node_id).toNat
      default_inode).size

/-- sfs_fopen: return the existing descriptor if the name is already open;
else open an existing file with the cursor at its size; else create the
file (first free directory slot, first free inode, first free fdt slot,
size 0, cursor 0) and persist inode and directory tables. -/
def sfs_fopen (s : SfsState) (filename : String) : SfsState × Int :=
  let fd := fdt_get_fd_by_filename s.g_root_directory_table s.g_fdt filename
  if fd ≠ -1 then (s, fd)
  else
    match root_get_directory_entry s.g_root_directory_table filename with
    | some j =>
      let vac_fdt := fdt_get_first_available_entry s.g_fdt
      if vac_fdt = -1 then (s, -1)
      else
        let inode_id := (s.g_root_directory_table.getD j default_dir_entry).i_node_id
        let sz := (s.g_inode_table.getD inode_id.toNat default_inode).size
        ({ s with g_fdt := s.g_fdt.set vac_fdt.toNat ⟨inode_id, sz⟩ }, vac_fdt)
    | none =>
      let vac_root := root_get_first_available_directory_entry s.g_root_directory_table
      let vac_i_node := inode_tab_get_first_available_entry s.g_inode_table
      let vac_fdt := fdt_get_first_available_entry s.g_fdt
      if vac_root = -1 ∨ vac_i_node = -1 ∨ vac_fdt = -1 then (s, -1)
      else
        let node := s.g_inode_table.getD vac_i_node.toNat default_inode
        let s1 : SfsState := { s with
          g_inode_table := s.g_inode_table.set vac_i_node.toNat { node with size := 0 }
          g_root_directory_table :=
            s.g_root_directory_table.set vac_root.toNat ⟨vac_i_node, filename⟩
          g_fdt := s.g_fdt.set vac_fdt.toNat ⟨vac_i_node, 0⟩ }
        (flush_root_directory_table (flush_i_node_table s1), vac_fdt)

/-- sfs_fclose: clear the descriptor; -1 if it was not open.  The source
indexes g_fdt[fd] unchecked; out-of-range descriptors are modelled as the
failure return. -/
def sfs_fclose (s : SfsState) (fd : Int) : SfsState × Int :=
  if fd < 0 ∨ (199 : Int) ≤ fd then (s, -1)
  else if (s.g_fdt.getD fd.toNat default_fdt_entry).i_node_idx = -1 then (s, -1)
  else ({ s with g_fdt := s.g_fdt.set fd.toNat ⟨-1, -1⟩ }, 0)

/-- One iteration state of the sfs_fwrite loop, recursing on fuel (the loop
consumes at least one byte of `length` per iteration).  Arguments mirror the
local variables: the write cursor `ptr`, the running local `file_size`, the
remaining `length`, the running `total_bytes_written`, and the offset into
the source buffer reached by the advancing buf_cpy pointer.  In the
new-block branch the local `char b[1024]` holds the memcpy-ed chunk followed
by uninitialized stack bytes, modelled as 0. -/
def sfs_fwrite_loop (s : SfsState) (idx : Nat) (buf : Nat → Int) :
    Nat → Nat → Int → Int → Int → Int → SfsState × Int × Int × Int
  | 0, _, ptr, file_size, _, total => (s, ptr, file_size, total)
  | fuel + 1, bufOff, ptr, file_size, length, total =>
    if length ≤ 0 then (s, ptr, file_size, total)
    else
      let bytes_to_write :=
        cmin (FILE_SYSTEM_BLOCK_SIZE - ptr.tmod FILE_SYSTEM_BLOCK_SIZE)
          (if length ≥ FILE_SYSTEM_BLOCK_SIZE then FILE_SYSTEM_BLOCK_SIZE else length)
      if ptr.tmod FILE_SYSTEM_BLOCK_SIZE = 0 ∧ ptr ≥ file_size then
        let p := inode_assign_new_block s idx
        let b : Nat → Int := fun i => if (i : Int) < bytes_to_write then buf (bufOff + i) else 0
        let s2 : SfsState := { p.1 with disk := Function.update p.1.disk p.2 (.bytes b) }
        sfs_fwrite_loop s2 idx buf fuel (bufOff + bytes_to_write.toNat)
          (ptr + bytes_to_write) (file_size + bytes_to_write)
          (length - bytes_to_write) (total + bytes_to_write)
      else
        let node := s.g_inode_table.getD idx default_inode
        let block_id := inode_get_block_id_by_offset s.disk node ptr
        let old := blockBytes (s.disk block_id)
        let off := ptr.tmod FILE_SYSTEM_BLOCK_SIZE
        let b : Nat → Int := fun i =>
          if off ≤ (i : Int) ∧ (i : Int) < off + bytes_to_write then
            buf (bufOff + ((i : Int) - off).toNat)
          else old i
        let s2 : SfsState := { s with disk := Function.update s.disk block_id (.bytes b) }
        sfs_fwrite_loop s2 idx buf fuel (bufOff + bytes_to_write.toNat)
          (ptr + bytes_to_write) (cmax file_size (ptr + bytes_to_write))
          (length - bytes_to_write) (total + bytes_to_write)

/-- sfs_fwrite: write `length` bytes of `buf` at the open descriptor's
cursor, growing the file block by block; afterwards record the new size in
the inode, flush bitmap and inode table, advance the cursor, and return the
total number of bytes written (-1 only when the descriptor is not open). -/
def sfs_fwrite (s : SfsState) (fd : Int) (buf : Nat → Int) (length : Int) : SfsState × Int :=
  if fd < 0 ∨ (199 : Int) ≤ fd then (s, -1)
  else if (s.g_fdt.getD fd.toNat default_fdt_entry).i_node_idx = -1 then (s, -1)
  else
    let idx := (s.g_fdt.getD fd.toNat default_fdt_entry).i_node_idx.toNat
    let node := s.g_inode_table.getD idx default_inode
    let start := (s.g_fdt.getD fd.toNat default_fdt_entry).read_write_pointer
    let r := sfs_fwrite_loop s idx buf length.toNat 0 start node.size length 0
    let s1 := r.1
    let node1 := s1.g_inode_table.getD idx default_inode
    let s2 : SfsState :=
      { s1 with g_inode_table := s1.g_inode_table.set idx { node1 with size := r.2.2.1 } }
    let s3 := flush_i_node_table (flush_bitmap s2)
    ({ s3 with g_fdt := s3.g_fdt.set fd.toNat ⟨(idx : Int), r.2.1⟩ }, r.2.2.2)

/-- One iteration of the sfs_fread loop (fuel-recursive like the write
loop).  The loop reads whole-block tails without clamping to the file size,
re-checking `ptr < size` only between chunks.  State is never mutated by the
loop; the caller buffer is modelled as a function updated chunk by chunk. -/
def sfs_fread_loop (s : SfsState) (node : i_node) :
    Nat → Nat → Int → Int → (Nat → Int) → Int → Int × (Nat → Int) × Int
  | 0, _, ptr, _, out, total => (ptr, out, total)
  | fuel + 1, outOff, ptr, length, out, total =>
    if length > 0 ∧ ptr < node.size then
      let bytes_to_read :=
        cmin (FILE_SYSTEM_BLOCK_SIZE - ptr.tmod FILE_SYSTEM_BLOCK_SIZE)
          (if length ≥ FILE_SYSTEM_BLOCK_SIZE then FILE_SYSTEM_BLOCK_SIZE else length)
      let block_id := inode_get_block_id_by_offset s.disk node ptr
      let block_data := blockBytes (s.disk block_id)
      let off := (ptr.tmod FILE_SYSTEM_BLOCK_SIZE).toNat
      let out1 : Nat → Int := fun i =>
        if outOff ≤ i ∧ (i : Int) < (outOff : Int) + bytes_to_read then
          block_data (off + (i - outOff))
        else out i
      sfs_fread_loop s node fuel (outOff + bytes_to_read.toNat) (ptr + bytes_to_read)
        (length - bytes_to_read) out1 (total + bytes_to_read)
    else (ptr, out, total)

/-- sfs_fread: read up to `length` bytes from the cursor into the caller
buffer (modelled as a function, initially zero), advance the cursor, return
the buffer and the total bytes read (-1 when the descriptor is not open). -/
def sfs_fread (s : SfsState) (fd : Int) (length : Int) : SfsState × (Nat → Int) × Int :=
  if fd < 0 ∨ (199 : Int) ≤ fd then (s, fun _ => 0, -1)
  else if (s.g_fdt.getD fd.toNat default_fdt_entry).i_node_idx = -1 then (s, fun _ => 0, -1)
  else
    let idx := (s.g_fdt.getD fd.toNat default_fdt_entry).i_node_idx.toNat
    let node := s.g_inode_table.getD idx default_inode
    let start := (s.g_fdt.getD fd.toNat default_fdt_entry).read_write_pointer
    let r := sfs_fread_loop s node length.toNat 0 start length (fun _ => 0) 0
    ({ s with g_fdt := s.g_fdt.set fd.toNat ⟨(idx : Int), r.1⟩ }, r.2.1, r.2.2)

/-- sfs_fseek: reject a cursor at or past the file size, else set it. -/
def sfs_fseek (s : SfsState) (fd : Int) (loc : Int) : SfsState × Int :=
  if fd < 0 ∨ (199 : Int) ≤ fd then (s, -1)
  else
    let file := s.g_fdt.getD fd.toNat default_fdt_entry
    if file.i_node_idx = -1 then (s, -1)
    else
      let node := s.g_inode_table.getD file.i_node_idx.toNat default_inode
      if loc ≥ node.size then (s, -1)
      else ({ s with g_fdt := s.g_fdt.set fd.toNat ⟨file.i_node_idx, loc⟩ }, 1)

/-- sfs_remove: fail on an absent name; else clear the first open descriptor
pointing at the inode, run inode_reset, empty the directory entry, and
persist the directory table. -/
def sfs_remove (s : SfsState) (filename : String) : SfsState × Int :=
  match root_get_directory_entry s.g_root_directory_table filename with
  | none => (s, -1)
  | some j =>
    let inode_id := (s.g_root_directory_table.getD j default_dir_entry).i_node_id
    let fdt1 :=
      match s.g_fdt.findIdx? (fun e => e.i_node_idx == inode_id) with
      | some k => s.g_fdt.set k ⟨-1, -1⟩
      | none => s.g_fdt
    let s1 := inode_reset { s with g_fdt := fdt1 } inode_id
    let s2 : SfsState :=
      { s1 with g_root_directory_table := s1.g_root_directory_table.set j ⟨-1, ""⟩ }
    (flush_root_directory_table s2, 1)

/-! ### Derived definitions used by the specification statements -/

/-- The freshly formatted file system: mksfs with flag 1 starting from the
zero-initialized C globals. -/
def fresh_state : SfsState := mksfs init_globals 1

/-- An all-zero block device, used where the device content is irrelevant. -/
def zero_disk : Int → BlockContent := fun _ => .bytes (fun _ => 0)

/-- The size of the file targeted by an open descriptor. -/
def fd_size (s : SfsState) (fd : Int) : Int :=
  (s.g_inode_table.getD
    (s.g_fdt.getD fd.toNat default_fdt_entry).i_node_idx.toNat default_inode).size

/-- The cursor of a descriptor. -/
def fd_cursor (s : SfsState) (fd : Int) : Int :=
  (s.g_fdt.getD fd.toNat default_fdt_entry).read_write_pointer

/-- The k-th block slot of an inode as the resolution function reads it:
slots 0..11 are the direct pointers, slots 12.. come from the loaded
indirect buffer. -/
def inode_slot_value (disk : Int → BlockContent) (node : i_node) (k : Nat) : Int :=
  if k < 12 then node.direct_pointers.getD k 0
  else (indirect_buffer (disk node.indirect_pointer)).getD (k - 12) 0

/-- An inode of a one-byte file occupying block 21, used as the concrete
input of the resolution boundary counterexample. -/
def c2_node : i_node :=
  ⟨0x777, 0, -1, -1, 1, [21, -1, -1, -1, -1, -1, -1, -1, -1, -1, -1, -1], -1⟩

/-- State reached by: format, create file a, write one byte, remove a. -/
def c3_state : SfsState :=
  (sfs_remove (sfs_fwrite (sfs_fopen fresh_state "a").1 0 (fun _ => 7) 1).1 "a").1

/-- A formatted file system whose free-block pool is exhausted (every bitmap
bit occupied), with one empty file z open at descriptor 0. -/
def c5_state : SfsState :=
  (sfs_fopen { fresh_state with g_bitmap := List.replicate 1024 false } "z").1

/-- State reached by: format, create file a, write five bytes (so the open
descriptor 0 has cursor 5 = size 5). -/
def w6_state : SfsState :=
  (sfs_fwrite (sfs_fopen fresh_state "a").1 0 (fun _ => 9) 5).1

/-- w6_state after seeking descriptor 0 to offset 3. -/
def c7_seek_state : SfsState := (sfs_fseek w6_state 0 3).1

/-- c7_seek_state after reading 10 bytes through descriptor 0 (a 5-byte file). -/
def c7_state : SfsState := (sfs_fread c7_seek_state 0 10).1

/-- w6_state with descriptor 0 closed again (file a exists with size 5, not open). -/
def w8_closed_state : SfsState := (sfs_fclose w6_state 0).1

/-- State reached by: format, create files a, b, c, d, remove a, remove c —
so the non-empty directory slots are at indices 1 (b), 3 (d) and 198 (the
phantom slot left by mksfs). -/
def c9_state : SfsState :=
  (sfs_remove (sfs_remove
    (sfs_fopen (sfs_fopen (sfs_fopen (sfs_fopen fresh_state "a").1 "b").1 "c").1 "d").1
    "a").1 "c").1

/-! ### Definitions for the block-accounting claim -/

/-- The directory entry at index i. -/
def dirE (s : SfsState) (i : Nat) : directory_entry :=
  s.g_root_directory_table.getD i default_dir_entry

/-- The inode at index i. -/
def inodeN (s : SfsState) (i : Nat) : i_node :=
  s.g_inode_table.getD i default_inode

/-- The open-file-table entry at index f. -/
def fdtE (s : SfsState) (f : Nat) : fdt_entry :=
  s.g_fdt.getD f default_fdt_entry

/-- The free bit of block b. -/
def bmFree (s : SfsState) (b : Nat) : Bool :=
  s.g_bitmap.getD b false

/-- Direct pointer k of an inode. -/
def dp (nd : i_node) (k : Nat) : Int :=
  nd.direct_pointers.getD k 0

/-- The number of blocks an inode size accounts for, as a Nat. -/
def activeLen (nd : i_node) : Nat :=
  (calculate_block_length nd.size).toNat

/-- The number of occupied blocks of the data region, blocks 21..1022. -/
def count_occupied_data_blocks (bm : List Bool) : Int :=
  ((List.range' 21 1002).map (fun b => if bm.getD b false then 0 else 1)).sum

/-- The sum, over the directory entries holding a live non-root inode, of
the blocks its size accounts for (ceil(size / block_size)). -/
def live_nonroot_block_sum (s : SfsState) : Int :=
  ((List.range 199).map (fun i =>
    if (dirE s i).i_node_id ≠ -1 ∧ (dirE s i).i_node_id ≠ 0 then
      calculate_block_length ((inodeN s (dirE s i).i_node_id.toNat).size)
    else 0)).sum

/-- The same sum over every live inode, the root directory inode included —
the literal reading of the claim. -/
def live_block_sum (s : SfsState) : Int :=
  ((List.range 199).map (fun i =>
    if (dirE s i).i_node_id ≠ -1 then
      calculate_block_length ((inodeN s (dirE s i).i_node_id.toNat).size)
    else 0)).sum

/-- The operations of the accounting claim.  A write addresses its file by
name through the descriptor that created it (the written bytes are
irrelevant to accounting, so an all-zero buffer is used). -/
inductive FsOp where
  | create (name : String)
  | write (name : String) (len : Nat)
  | remove (name : String)

/-- Execute one operation through the facade. -/
def exec_op (s : SfsState) : FsOp → SfsState
  | .create name => (sfs_fopen s name).1
  | .write name len =>
    (sfs_fwrite s (fdt_get_fd_by_filename s.g_root_directory_table s.g_fdt name)
      (fun _ => 0) (len : Int)).1
  | .remove name => (sfs_remove s name).1

/-- Execute a sequence of operations. -/
def exec_ops (s : SfsState) : List FsOp → SfsState
  | [] => s
  | op :: rest => exec_ops (exec_op s op) rest

/-- Validity of one operation in a state: a create targets a fresh name and
the needed free slots exist; a write targets an open name, keeps the file
within the 12 direct blocks, and fits in the data region; a remove targets
an existing named file (the phantom empty name excluded). -/
def op_valid (s : SfsState) : FsOp → Prop
  | .create name =>
    name ≠ "" ∧
    root_get_directory_entry s.g_root_directory_table name = none ∧
    root_get_first_available_directory_entry s.g_root_directory_table ≠ -1 ∧
    inode_tab_get_first_available_entry s.g_inode_table ≠ -1 ∧
    fdt_get_first_available_entry s.g_fdt ≠ -1
  | .write name len =>
    fdt_get_fd_by_filename s.g_root_directory_table s.g_fdt name ≠ -1 ∧
    fd_size s (fdt_get_fd_by_filename s.g_root_directory_table s.g_fdt name) + (len : Int) ≤
      12 * 1024 ∧
    count_occupied_data_blocks s.g_bitmap +
      (calculate_block_length
        (fd_size s (fdt_get_fd_by_filename s.g_root_directory_table s.g_fdt name) + (len : Int)) -
       calculate_block_length
        (fd_size s (fdt_get_fd_by_filename s.g_root_directory_table s.g_fdt name))) ≤ 1002
  | .remove name =>
    name ≠ "" ∧ (root_get_directory_entry s.g_root_directory_table name).isSome = true

/-- Validity of a whole sequence, each operation valid in the state it runs in. -/
def ops_valid (s : SfsState) : List FsOp → Prop
  | [] => True
  | op :: rest => op_valid s op ∧ ops_valid (exec_op s op) rest

/-- The state invariant maintained by valid create/write/remove sequences
from a fresh format.  It records the table geometry, the permanently
occupied metadata bits, the phantom directory slot, the shape of live and
free inodes, uniqueness of names, inode ids, open descriptors and block
ownership, cursor-at-size for open descriptors, and the accounting equation
itself. -/
structure SfsInv (s : SfsState) : Prop where
  itab_len : s.g_inode_table.length = 200
  dir_len : s.g_root_directory_table.length = 199
  fdt_len : s.g_fdt.length = 199
  bm_len : s.g_bitmap.length = 1024
  meta_occ : ∀ b : Nat, b < 21 → bmFree s b = false
  tail_occ : bmFree s 1023 = false
  phantom : dirE s 198 = ⟨0, ""⟩
  root0 : (inodeN s 0).size ≠ -1
  fresh_shape : ∀ m : Nat, m < 200 → (inodeN s m).size = -1 →
    (inodeN s m).direct_pointers = List.replicate 12 (-1) ∧
    (inodeN s m).indirect_pointer = -1
  live_id : ∀ i : Nat, i < 198 → (dirE s i).i_node_id ≠ -1 →
    1 ≤ (dirE s i).i_node_id ∧ (dirE s i).i_node_id < 200
  live_name : ∀ i : Nat, i < 198 → (dirE s i).i_node_id ≠ -1 →
    (dirE s i).file_name ≠ ""
  live_node : ∀ i : Nat, i < 198 → (dirE s i).i_node_id ≠ -1 →
    0 ≤ (inodeN s (dirE s i).i_node_id.toNat).size ∧
    (inodeN s (dirE s i).i_node_id.toNat).size ≤ 12 * 1024 ∧
    (inodeN s (dirE s i).i_node_id.toNat).indirect_pointer = -1 ∧
    (inodeN s (dirE s i).i_node_id.toNat).direct_pointers.length = 12
  live_dp : ∀ i : Nat, i < 198 → (dirE s i).i_node_id ≠ -1 → ∀ k : Nat, k < 12 →
    (k < activeLen (inodeN s (dirE s i).i_node_id.toNat) →
      21 ≤ dp (inodeN s (dirE s i).i_node_id.toNat) k ∧
      dp (inodeN s (dirE s i).i_node_id.toNat) k < 1023 ∧
      bmFree s (dp (inodeN s (dirE s i).i_node_id.toNat) k).toNat = false) ∧
    (activeLen (inodeN s (dirE s i).i_node_id.toNat) ≤ k →
      dp (inodeN s (dirE s i).i_node_id.toNat) k = -1)
  name_uniq : ∀ i j : Nat, i < 198 → j < 198 → i ≠ j → (dirE s i).i_node_id ≠ -1 →
    (dirE s j).i_node_id ≠ -1 → (dirE s i).file_name ≠ (dirE s j).file_name
  id_uniq : ∀ i j : Nat, i < 199 → j < 199 → i ≠ j → (dirE s i).i_node_id ≠ -1 →
    (dirE s j).i_node_id ≠ -1 → (dirE s i).i_node_id ≠ (dirE s j).i_node_id
  blocks_disjoint : ∀ i j : Nat, i < 198 → j < 198 →
    (dirE s i).i_node_id ≠ -1 → (dirE s j).i_node_id ≠ -1 →
    ∀ k l : Nat, k < activeLen (inodeN s (dirE s i).i_node_id.toNat) →
      l < activeLen (inodeN s (dirE s j).i_node_id.toNat) → (i ≠ j ∨ k ≠ l) →
      dp (inodeN s (dirE s i).i_node_id.toNat) k ≠ dp (inodeN s (dirE s j).i_node_id.toNat) l
  fdt_live : ∀ f : Nat, f < 199 → (fdtE s f).i_node_idx ≠ -1 →
    ∃ i : Nat, i < 198 ∧ (dirE s i).i_node_id ≠ -1 ∧
      (dirE s i).i_node_id = (fdtE s f).i_node_idx
  fdt_cursor : ∀ f : Nat, f < 199 → (fdtE s f).i_node_idx ≠ -1 →
    (fdtE s f).read_write_pointer = (inodeN s (fdtE s f).i_node_idx.toNat).size
  fdt_uniq : ∀ f f2 : Nat, f < 199 → f2 < 199 → f ≠ f2 → (fdtE s f).i_node_idx ≠ -1 →
    (fdtE s f2).i_node_idx ≠ -1 → (fdtE s f).i_node_idx ≠ (fdtE s f2).i_node_idx
  account : count_occupied_data_blocks s.g_bitmap = live_nonroot_block_sum s

/-- Relation between the pre-write state s and the state sc reached part way
through an appending sfs_fwrite of the inode at index idx, with original
size S0 and the write cursor at ptr: only the bitmap, the grown inode and
the device change; the grown inode has the first ceil(ptr/1024) direct
slots filled (the first ceil(S0/1024) as before, the rest with blocks that
were free before the write), all distinct, occupied, inside the data
region; the bitmap only gained occupied bits, exactly ceil(ptr/1024) -
ceil(S0/1024) of them in the data region. -/
structure WriteMid (s sc : SfsState) (idx : Nat) (S0 ptr : Int) : Prop where
  dir_eq : sc.g_root_directory_table = s.g_root_directory_table
  fdt_eq : sc.g_fdt = s.g_fdt
  itab_len : sc.g_inode_table.length = 200
  other_inodes : ∀ m : Nat, m ≠ idx → inodeN sc m = inodeN s m
  size_eq : (inodeN sc idx).size = S0
  ind_eq : (inodeN sc idx).indirect_pointer = -1
  dp_len : (inodeN sc idx).direct_pointers.length = 12
  dp_old : ∀ k : Nat, k < (calculate_block_length S0).toNat →
    dp (inodeN sc idx) k = dp (inodeN s idx) k
  dp_active : ∀ k : Nat, k < 12 →
    (k < (calculate_block_length ptr).toNat →
      21 ≤ dp (inodeN sc idx) k ∧ dp (inodeN sc idx) k < 1023 ∧
      bmFree sc (dp (inodeN sc idx) k).toNat = false) ∧
    ((calculate_block_length ptr).toNat ≤ k → dp (inodeN sc idx) k = -1)
  dp_new_free : ∀ k : Nat, (calculate_block_length S0).toNat ≤ k →
    k < (calculate_block_length ptr).toNat →
    bmFree s (dp (inodeN sc idx) k).toNat = true
  dp_distinct : ∀ k l : Nat, k < (calculate_block_length ptr).toNat →
    l < (calculate_block_length ptr).toNat → k ≠ l →
    dp (inodeN sc idx) k ≠ dp (inodeN sc idx) l
  bm_len : sc.g_bitmap.length = 1024
  bm_mono : ∀ b : Nat, bmFree s b = false → bmFree sc b = false
  bm_count : count_occupied_data_blocks sc.g_bitmap =
    count_occupied_data_blocks s.g_bitmap +
      (calculate_block_length ptr - calculate_block_length S0)

/-! ### General lemmas about the list scans -/

theorem findIdx?_some_lt {α : Type} {p : α → Bool} {l : List α} {i : Nat}
    (h : l.findIdx? p = some i) : i < l.length := by
  induction l generalizing i with
  | nil => simp [List.findIdx?_nil] at h
  | cons x xs ih =>
    rw [List.findIdx?_cons] at h
    by_cases hx : p x
    · simp only [hx, if_true, Option.some.injEq] at h
      simp [List.length_cons]
      omega
    · simp only [hx, Bool.false_eq_true, if_false, List.findIdx?_succ, Option.map_eq_some'] at h
      rcases h with ⟨j, hj, rfl⟩
      have := ih hj
      simp [List.length_cons]
      omega

theorem findIdx?_some_getD {α : Type} {p : α → Bool} {l : List α} {i : Nat} (d : α)
    (h : l.findIdx? p = some i) : p (l.getD i d) = true := by
  induction l generalizing i with
  | nil => simp [List.findIdx?_nil] at h
  | cons x xs ih =>
    rw [List.findIdx?_cons] at h
    by_cases hx : p x
    · simp only [hx, if_true, Option.some.injEq] at h
      subst h
      simpa using hx
    · simp only [hx, Bool.false_eq_true, if_false, List.findIdx?_succ, Option.map_eq_some'] at h
      rcases h with ⟨j, hj, rfl⟩
      simpa using ih hj

theorem findIdx?_some_earlier {α : Type} {p : α → Bool} {l : List α} {i : Nat} (d : α)
    (h : l.findIdx? p = some i) : ∀ j, j < i → p (l.getD j d) = false := by
  induction l generalizing i with
  | nil => simp [List.findIdx?_nil] at h
  | cons x xs ih =>
    rw [List.findIdx?_cons] at h
    by_cases hx : p x
    · simp only [hx, if_true, Option.some.injEq] at h
      intro j hj
      omega
    · simp only [hx, Bool.false_eq_true, if_false, List.findIdx?_succ, Option.map_eq_some'] at h
      rcases h with ⟨j0, hj0, rfl⟩
      intro j hj
      cases j with
      | zero => simpa using hx
      | succ j => simpa using ih hj0 j (by omega)

theorem findIdx?_none_getD {α : Type} {p : α → Bool} {l : List α} (d : α)
    (h : l.findIdx? p = none) : ∀ j, j < l.length → p (l.getD j d) = false := by
  rw [List.findIdx?_eq_none_iff] at h
  intro j hj
  rw [List.getD_eq_getElem l d hj]
  exact h _ (List.getElem_mem hj)

theorem findIdx?_eq_some_intro {α : Type} {p : α → Bool} {l : List α} {i : Nat} (d : α)
    (hi : i < l.length) (hp : p (l.getD i d) = true)
    (hmin : ∀ j, j < i → p (l.getD j d) = false) : l.findIdx? p = some i := by
  induction l generalizing i with
  | nil => simp at hi
  | cons x xs ih =>
    rw [List.findIdx?_cons]
    cases i with
    | zero =>
      simp only [List.getD_cons_zero] at hp
      simp [hp]
    | succ i =>
      have hx : p x = false := by simpa using hmin 0 (Nat.succ_pos i)
      simp only [hx, Bool.false_eq_true, if_false, List.findIdx?_succ]
      have : xs.findIdx? p = some i := by
        refine ih (by simpa using hi) (by simpa using hp) ?_
        intro j hj
        simpa using hmin (j + 1) (by omega)
      simp [this]

theorem getD_set_self {α : Type} (l : List α) (i : Nat) (a d : α) (h : i < l.length) :
    (l.set i a).getD i d = a := by
  simp [List.getD, List.getElem?_set_self', List.getElem?_eq_getElem h]

theorem getD_set_ne {α : Type} (l : List α) (i j : Nat) (a d : α) (h : i ≠ j) :
    (l.set i a).getD j d = l.getD j d := by
  simp [List.getD, List.getElem?_set_ne h]

theorem tdiv_1024_nonneg (a : Int) (h : 0 ≤ a) : a.tdiv 1024 = a / 1024 :=
  Int.tdiv_eq_ediv h (by norm_num)

theorem tmod_1024_nonneg (a : Int) (h : 0 ≤ a) : a.tmod 1024 = a % 1024 :=
  Int.tmod_eq_emod h (by norm_num)

/-! ### C10: the phantom directory entry of a fresh format -/

/-- C10: after mksfs(1) the directory initialization loop covers only the
first NUM_OF_FILES - 1 = 198 slots, so slot 198 keeps its zero-initialized
inode id 0 (not the empty sentinel -1); hence on an otherwise empty freshly
formatted file system the non-empty-entry count is 1 and
sfs_getnextfilename succeeds (returns 1), reporting an entry with the
all-zero (empty) name. -/
theorem mksfs_phantom_entry :
    (fresh_state.g_root_directory_table.getD 198 default_dir_entry).i_node_id = 0 ∧
    (fresh_state.g_root_directory_table.getD 198 default_dir_entry).i_node_id ≠ -1 ∧
    root_count_number_of_files fresh_state.g_root_directory_table = 1 ∧
    (sfs_getnextfilename fresh_state).2.1 = 1 ∧
    (sfs_getnextfilename fresh_state).2.2 = "" := by
  decide

/-! ### C9: sfs_getnextfilename does not walk the non-empty entries -/

/-- C9 failing input: in c9_state the non-empty directory slots are at
indices 1 (file b), 3 (file d) and 198 (the phantom), so by the claim the
first listing call must report the first non-empty entry, file b.  Instead
the call reports success with the empty name of slot 0 — an empty slot —
because root_get_ith_file indexes the table with the target ordinal i
rather than the scan position j. -/
theorem sfs_getnextfilename_skips_entries :
    ((c9_state.g_root_directory_table.filter
        (fun e => e.i_node_id != -1)).headD default_dir_entry).file_name = "b" ∧
    (c9_state.g_root_directory_table.getD 0 default_dir_entry).i_node_id = -1 ∧
    (sfs_getnextfilename c9_state).2.1 = 1 ∧
    (sfs_getnextfilename c9_state).2.2 = "" ∧
    (sfs_getnextfilename c9_state).2.2 ≠ "b" := by
  decide

/-! ### C3: sfs_remove leaves the inode table entry untouched -/

/-- C3 failing input: format, create a, write one byte, remove a.  The
directory entry is cleared and the data block is released, but because
inode_reset mutates a by-value copy, the removed inode keeps size 1 and its
direct pointer 21 in the cached table (the claim requires the free sentinel
everywhere), and the free-inode scan returns slot 2 instead of reusing
slot 1. -/
theorem sfs_remove_leaves_inode :
    (c3_state.g_inode_table.getD 1 default_inode).size = 1 ∧
    (c3_state.g_inode_table.getD 1 default_inode).direct_pointers.getD 0 0 = 21 ∧
    inode_tab_get_first_available_entry c3_state.g_inode_table = 2 ∧
    bitmap_is_block_free c3_state.g_bitmap 21 = true ∧
    (c3_state.g_root_directory_table.getD 0 default_dir_entry).i_node_id = -1 := by
  decide

/-! ### C7: the cursor can leave the interval [0, size] -/

/-- C7 failing input: format, create a, write 5 bytes, seek to 3, read 10
bytes.  sfs_fread copies to the end of the block without clamping to the
file size, so it reports 10 bytes read and leaves the cursor at 13, outside
[0, 5].  (A seek to a negative offset similarly escapes the interval from
below, since sfs_fseek only rejects offsets at or past the size.) -/
theorem sfs_fread_cursor_overshoot :
    sfs_getfilesize c7_state "a" = 5 ∧
    (sfs_fread c7_seek_state 0 10).2.2 = 10 ∧
    fd_cursor c7_state 0 = 13 ∧
    ¬ (fd_cursor c7_state 0 ≤ fd_size c7_state 0) := by
  decide

/-! ### C5: sfs_fwrite reports bytes written after a failed allocation -/

/-- C5 failing input: a formatted file system whose bitmap is fully
occupied, with the empty file z open at descriptor 0.  Writing one byte
needs a new block, inode_assign_new_block fails (the free-block scan
returns -1), yet sfs_fwrite ignores that result and returns 1 as the byte
count instead of a failure indicator. -/
theorem sfs_fwrite_ignores_allocation_failure :
    bitmap_find_first_available_block c5_state.g_bitmap = -1 ∧
    fd_size c5_state 0 = 0 ∧
    (sfs_fwrite c5_state 0 (fun _ => 5) 1).2 = 1 ∧
    (sfs_fwrite c5_state 0 (fun _ => 5) 1).2 ≠ -1 := by
  decide

/-! ### C2: resolution fails at block granularity, not byte granularity -/

/-- C2 counterexample: for the one-byte file of c2_node, the offset 1 is at
(indeed beyond) the file size, so by the claim resolution must fail; the
code instead resolves it inside the first block and returns block 21. -/
theorem inode_resolve_past_size_counterexample :
    c2_node.size ≤ 1 ∧
    inode_get_block_id_by_offset zero_disk c2_node 1 = 21 ∧
    inode_get_block_id_by_offset zero_disk c2_node 1 ≠ -1 := by
  decide

/-- C2 amended: for a nonnegative offset and a hole-free inode (every block
slot counted by the size is assigned), resolution fails exactly when the
offset is at or beyond the end of the last block,
ceil(size / block_size) * block_size; in particular every offset in
[size, ceil(size/block_size)*block_size) resolves successfully. -/
theorem inode_resolve_block_granularity (disk : Int → BlockContent) (node : i_node) (loc : Int)
    (hloc : 0 ≤ loc)
    (hwf : ∀ k : Nat, k < (calculate_block_length node.size).toNat →
      inode_slot_value disk node k ≠ -1) :
    (inode_get_block_id_by_offset disk node loc = -1 ↔
      calculate_block_length node.size * FILE_SYSTEM_BLOCK_SIZE ≤ loc) ∧
    (node.size ≤ loc → loc < calculate_block_length node.size * FILE_SYSTEM_BLOCK_SIZE →
      inode_get_block_id_by_offset disk node loc ≠ -1) := by
  have hmain : ¬ calculate_block_length node.size * FILE_SYSTEM_BLOCK_SIZE ≤ loc →
      inode_get_block_id_by_offset disk node loc ≠ -1 := by
    intro hlt
    unfold inode_get_block_id_by_offset
    rw [if_neg hlt]
    simp only [FILE_SYSTEM_BLOCK_SIZE] at hlt ⊢
    by_cases h12 : loc < 12 * 1024
    · rw [if_pos h12]
      rw [tdiv_1024_nonneg loc hloc]
      have hk := hwf (loc / 1024).toNat (by omega)
      unfold inode_slot_value at hk
      rwa [if_pos (by omega)] at hk
    · rw [if_neg h12]
      rw [tdiv_1024_nonneg (loc - 12 * 1024) (by omega)]
      have hk := hwf (12 + ((loc - 12 * 1024) / 1024).toNat) (by omega)
      unfold inode_slot_value at hk
      rw [if_neg (by omega)] at hk
      have harith : 12 + ((loc - 12 * 1024) / 1024).toNat - 12 =
          ((loc - 12 * 1024) / 1024).toNat := by omega
      rwa [harith] at hk
  constructor
  · constructor
    · intro hres
      by_contra hle
      exact hmain hle hres
    · intro hle
      unfold inode_get_block_id_by_offset
      rw [if_pos hle]
  · intro _ hlt
    exact hmain (by omega)

/-- C2 witness: the amended characterization applied to the concrete
one-byte file at offset 0 (in range: resolution does not fail). -/
theorem inode_resolve_block_granularity_witness :
    (0 : Int) ≤ 0 ∧
    (∀ k : Nat, k < (calculate_block_length c2_node.size).toNat →
      inode_slot_value zero_disk c2_node k ≠ -1) ∧
    (inode_get_block_id_by_offset zero_disk c2_node 0 = -1 ↔
      calculate_block_length c2_node.size * FILE_SYSTEM_BLOCK_SIZE ≤ 0) := by
  exact ⟨by decide, by decide,
    (inode_resolve_block_granularity zero_disk c2_node 0 (by decide) (by decide)).1⟩

/-! ### C6: the seek boundary -/

/-- C6: for an open descriptor, sfs_fseek fails (returns -1) exactly when
the requested offset is at or beyond the file size; seeking to size fails,
seeking to size - 1 (for a nonempty file) succeeds and sets the cursor. -/
theorem sfs_fseek_boundary (s : SfsState) (fd loc : Int)
    (h0 : 0 ≤ fd) (h1 : fd < 199) (hlen : s.g_fdt.length = 199)
    (hopen : (s.g_fdt.getD fd.toNat default_fdt_entry).i_node_idx ≠ -1) :
    ((sfs_fseek s fd loc).2 = -1 ↔ fd_size s fd ≤ loc) ∧
    ((sfs_fseek s fd loc).2 = 1 ↔ loc < fd_size s fd) ∧
    (loc < fd_size s fd → fd_cursor (sfs_fseek s fd loc).1 fd = loc) ∧
    (sfs_fseek s fd (fd_size s fd)).2 = -1 ∧
    (0 < fd_size s fd →
      (sfs_fseek s fd (fd_size s fd - 1)).2 = 1 ∧
      fd_cursor (sfs_fseek s fd (fd_size s fd - 1)).1 fd = fd_size s fd - 1) := by
  have hguard : ¬ (fd < 0 ∨ (199 : Int) ≤ fd) := by omega
  have hnat : fd.toNat < s.g_fdt.length := by omega
  have key : ∀ l : Int,
      ((sfs_fseek s fd l).2 = if fd_size s fd ≤ l then -1 else 1) ∧
      (l < fd_size s fd → fd_cursor (sfs_fseek s fd l).1 fd = l) := by
    intro l
    unfold sfs_fseek
    rw [if_neg hguard, if_neg hopen]
    unfold fd_size fd_cursor
    by_cases hge : l ≥
        (s.g_inode_table.getD
          (s.g_fdt.getD fd.toNat default_fdt_entry).i_node_idx.toNat default_inode).size
    · rw [if_pos hge]
      exact ⟨by rw [if_pos hge], by intro h; omega⟩
    · rw [if_neg hge]
      refine ⟨by rw [if_neg (by omega)], ?_⟩
      intro _
      simp only
      rw [getD_set_self _ _ _ _ hnat]
  refine ⟨?_, ?_, (key loc).2, ?_, ?_⟩
  · rw [(key loc).1]
    constructor
    · intro h
      by_contra hc
      rw [if_neg hc] at h
      norm_num at h
    · intro h
      rw [if_pos h]
  · rw [(key loc).1]
    constructor
    · intro h
      by_contra hc
      rw [if_pos (by omega)] at h
      norm_num at h
    · intro h
      rw [if_neg (by omega)]
  · rw [(key (fd_size s fd)).1, if_pos le_rfl]
  · intro hpos
    refine ⟨?_, (key (fd_size s fd - 1)).2 (by omega)⟩
    rw [(key (fd_size s fd - 1)).1, if_neg (by omega)]

/-- C6 witness: the boundary applied to the concrete 5-byte file of
w6_state through its open descriptor 0. -/
theorem sfs_fseek_boundary_witness :
    (0 : Int) ≤ 0 ∧ (0 : Int) < 199 ∧ w6_state.g_fdt.length = 199 ∧
    (w6_state.g_fdt.getD (0 : Int).toNat default_fdt_entry).i_node_idx ≠ -1 ∧
    (sfs_fseek w6_state 0 (fd_size w6_state 0)).2 = -1 ∧
    (sfs_fseek w6_state 0 (fd_size w6_state 0 - 1)).2 = 1 := by
  have h := sfs_fseek_boundary w6_state 0 0 (by decide) (by decide) (by decide) (by decide)
  exact ⟨by decide, by decide, by decide, by decide, h.2.2.2.1, (h.2.2.2.2 (by decide)).1⟩

/-! ### C8: the three-way open contract -/

/-- C8: sfs_fopen returns the existing descriptor, state untouched, when the
name is already open; opens an existing unopened name with the cursor at the
file size; and creates a missing name with size 0 and cursor 0 (when the
needed free slots exist). -/
theorem sfs_fopen_contract (s : SfsState) (filename : String) :
    (∀ fd : Int,
      fdt_get_fd_by_filename s.g_root_directory_table s.g_fdt filename = fd → fd ≠ -1 →
      sfs_fopen s filename = (s, fd)) ∧
    (∀ j : Nat,
      fdt_get_fd_by_filename s.g_root_directory_table s.g_fdt filename = -1 →
      root_get_directory_entry s.g_root_directory_table filename = some j →
      fdt_get_first_available_entry s.g_fdt ≠ -1 →
      (sfs_fopen s filename).2 = fdt_get_first_available_entry s.g_fdt ∧
      (sfs_fopen s filename).1.g_fdt =
        s.g_fdt.set (fdt_get_first_available_entry s.g_fdt).toNat
          ⟨(s.g_root_directory_table.getD j default_dir_entry).i_node_id,
           (s.g_inode_table.getD
             (s.g_root_directory_table.getD j default_dir_entry).i_node_id.toNat
             default_inode).size⟩ ∧
      (sfs_fopen s filename).1.g_inode_table = s.g_inode_table ∧
      (sfs_fopen s filename).1.g_root_directory_table = s.g_root_directory_table) ∧
    (fdt_get_fd_by_filename s.g_root_directory_table s.g_fdt filename = -1 →
      root_get_directory_entry s.g_root_directory_table filename = none →
      root_get_first_available_directory_entry s.g_root_directory_table ≠ -1 →
      inode_tab_get_first_available_entry s.g_inode_table ≠ -1 →
      fdt_get_first_available_entry s.g_fdt ≠ -1 →
      (sfs_fopen s filename).2 = fdt_get_first_available_entry s.g_fdt ∧
      (sfs_fopen s filename).1.g_fdt =
        s.g_fdt.set (fdt_get_first_available_entry s.g_fdt).toNat
          ⟨inode_tab_get_first_available_entry s.g_inode_table, 0⟩ ∧
      (sfs_fopen s filename).1.g_root_directory_table =
        s.g_root_directory_table.set
          (root_get_first_available_directory_entry s.g_root_directory_table).toNat
          ⟨inode_tab_get_first_available_entry s.g_inode_table, filename⟩ ∧
      (sfs_fopen s filename).1.g_inode_table =
        s.g_inode_table.set (inode_tab_get_first_available_entry s.g_inode_table).toNat
          { (s.g_inode_table.getD
              (inode_tab_get_first_available_entry s.g_inode_table).toNat
              default_inode) with size := 0 }) := by
  refine ⟨?_, ?_, ?_⟩
  · intro fd hfd hne
    unfold sfs_fopen
    rw [hfd, if_pos hne]
  · intro j hfd hdir hvac
    unfold sfs_fopen
    rw [hfd]
    rw [if_neg (by simp), hdir]
    dsimp only
    rw [if_neg hvac]
    exact ⟨rfl, rfl, rfl, rfl⟩
  · intro hfd hdir hroot hinode hvac
    unfold sfs_fopen
    rw [hfd]
    rw [if_neg (by simp), hdir]
    dsimp only
    rw [if_neg (by push_neg; exact ⟨hroot, hinode, hvac⟩)]
    unfold flush_root_directory_table flush_i_node_table
    exact ⟨rfl, rfl, rfl, rfl⟩

/-- C8 witness: the three cases at concrete states — reopening the open
file a of w6_state returns descriptor 0 unchanged; opening the closed
5-byte file a of w8_closed_state yields cursor 5 = its size; opening the
absent name a on a fresh file system creates it with size 0 and cursor 0. -/
theorem sfs_fopen_contract_witness :
    sfs_fopen w6_state "a" = (w6_state, 0) ∧
    (sfs_fopen w8_closed_state "a").2 = 0 ∧
    fd_cursor (sfs_fopen w8_closed_state "a").1 0 = 5 ∧
    sfs_getfilesize w8_closed_state "a" = 5 ∧
    (sfs_fopen fresh_state "a").2 = 0 ∧
    fd_cursor (sfs_fopen fresh_state "a").1 0 = 0 ∧
    sfs_getfilesize (sfs_fopen fresh_state "a").1 "a" = 0 := by
  have h1 := (sfs_fopen_contract w6_state "a").1 0 (by decide) (by decide)
  have h2 := (sfs_fopen_contract w8_closed_state "a").2.1 0 (by decide) (by decide) (by decide)
  have h3 := (sfs_fopen_contract fresh_state "a").2.2 (by decide) (by decide) (by decide)
    (by decide) (by decide)
  refine ⟨h1, ?_, ?_, by decide, ?_, ?_, ?_⟩
  · rw [h2.1]; decide
  · unfold fd_cursor
    rw [h2.2.1]; decide
  · rw [h3.1]; decide
  · unfold fd_cursor
    rw [h3.2.1]; decide
  · unfold sfs_getfilesize
    rw [h3.2.2.1, h3.2.2.2]; decide

/-! ### Sum and bitmap-count lemmas for the accounting claim -/

theorem sum_map_single_diff (f g : Nat → Int) (b : Nat) :
    ∀ l : List Nat, l.Nodup → b ∈ l → (∀ x ∈ l, x ≠ b → f x = g x) →
    (l.map f).sum = (l.map g).sum + (f b - g b) := by
  intro l
  induction l with
  | nil => intro _ hb; simp at hb
  | cons x xs ih =>
    intro hnd hb hagree
    rcases List.mem_cons.mp hb with hx | hx
    · obtain rfl := hx
      have hnx : b ∉ xs := (List.nodup_cons.mp hnd).1
      have : xs.map f = xs.map g := by
        apply List.map_congr_left
        intro a ha
        exact hagree a (List.mem_cons_of_mem _ ha) (fun hc => hnx (hc ▸ ha))
      simp [List.sum_cons, this]
      ring
    · have hxb : x ≠ b := by
        intro hc
        exact (List.nodup_cons.mp hnd).1 (hc ▸ hx)
      have := ih (List.nodup_cons.mp hnd).2 hx
        (fun a ha hab => hagree a (List.mem_cons_of_mem _ ha) hab)
      simp [List.sum_cons, this, hagree x (List.mem_cons_self x xs) hxb]
      ring

theorem mem_range'_1 (x s n : Nat) : x ∈ List.range' s n ↔ s ≤ x ∧ x < s + n := by
  rw [List.mem_range']
  constructor
  · rintro ⟨i, hi, rfl⟩
    omega
  · intro h
    exact ⟨x - s, by omega, by omega⟩

theorem count_occupied_congr (bm bm2 : List Bool)
    (h : ∀ b : Nat, 21 ≤ b → b < 1023 → bm2.getD b false = bm.getD b false) :
    count_occupied_data_blocks bm2 = count_occupied_data_blocks bm := by
  unfold count_occupied_data_blocks
  congr 1
  apply List.map_congr_left
  intro a ha
  rw [mem_range'_1] at ha
  rw [h a (by omega) (by omega)]

theorem count_occupied_set_false (bm : List Bool) (b : Nat)
    (hlen : bm.length = 1024) (hb1 : 21 ≤ b) (hb2 : b < 1023)
    (hfree : bm.getD b false = true) :
    count_occupied_data_blocks (bm.set b false) = count_occupied_data_blocks bm + 1 := by
  unfold count_occupied_data_blocks
  rw [sum_map_single_diff _ (fun x => if bm.getD x false then 0 else 1) b
    (List.range' 21 1002) (List.nodup_range' 21 1002)
    ((mem_range'_1 b 21 1002).mpr (by omega))
    (fun x _ hxb => by rw [getD_set_ne bm b x false false (fun hc => hxb (hc ▸ rfl))])]
  rw [getD_set_self bm b false false (by omega), hfree]
  norm_num

theorem count_occupied_set_true (bm : List Bool) (b : Nat)
    (hlen : bm.length = 1024) (hb1 : 21 ≤ b) (hb2 : b < 1023)
    (hocc : bm.getD b false = false) :
    count_occupied_data_blocks (bm.set b true) = count_occupied_data_blocks bm - 1 := by
  unfold count_occupied_data_blocks
  rw [sum_map_single_diff _ (fun x => if bm.getD x false then 0 else 1) b
    (List.range' 21 1002) (List.nodup_range' 21 1002)
    ((mem_range'_1 b 21 1002).mpr (by omega))
    (fun x _ hxb => by rw [getD_set_ne bm b x true false (fun hc => hxb (hc ▸ rfl))])]
  rw [getD_set_self bm b true false (by omega), hocc]
  norm_num
  ring

theorem count_occupied_full_of_no_free (bm : List Bool)
    (h : ∀ b : Nat, 21 ≤ b → b < 1023 → bm.getD b false = false) :
    count_occupied_data_blocks bm = 1002 := by
  unfold count_occupied_data_blocks
  have : (List.range' 21 1002).map (fun b => if bm.getD b false then (0 : Int) else 1) =
      (List.range' 21 1002).map (fun _ => (1 : Int)) := by
    apply List.map_congr_left
    intro a ha
    rw [mem_range'_1] at ha
    rw [h a (by omega) (by omega)]
    norm_num
  rw [this]
  rw [show (List.range' 21 1002).map (fun _ => (1 : Int)) =
    List.replicate (List.range' 21 1002).length 1 from List.map_const' _ 1]
  rw [List.sum_replicate]
  simp

theorem exists_free_data_block (bm : List Bool)
    (hcount : count_occupied_data_blocks bm < 1002) :
    ∃ b : Nat, 21 ≤ b ∧ b < 1023 ∧ bm.getD b false = true := by
  by_contra hc
  push_neg at hc
  have : count_occupied_data_blocks bm = 1002 := by
    apply count_occupied_full_of_no_free
    intro b hb1 hb2
    have := hc b hb1 hb2
    simpa using this
  omega

/-- The first-free-block scan, under the permanent metadata occupation,
lands in the data region whenever a free data block exists. -/
theorem find_first_block_spec (bm : List Bool) (hlen : bm.length = 1024)
    (hmeta : ∀ b : Nat, b < 21 → bm.getD b false = false)
    (htail : bm.getD 1023 false = false)
    (hfree : ∃ b : Nat, 21 ≤ b ∧ b < 1023 ∧ bm.getD b false = true) :
    ∃ b0 : Nat, bitmap_find_first_available_block bm = (b0 : Int) ∧
      21 ≤ b0 ∧ b0 < 1023 ∧ bm.getD b0 false = true ∧
      (∀ x : Nat, x < b0 → bm.getD x false = false) := by
  rcases hfree with ⟨b, hb1, hb2, hb3⟩
  unfold bitmap_find_first_available_block
  cases hf : bm.findIdx? (fun x => x) with
  | none =>
    have := findIdx?_none_getD false hf b (by omega)
    rw [hb3] at this
    exact absurd this (by simp)
  | some i =>
    have hi_lt : i < 1024 := hlen ▸ findIdx?_some_lt hf
    have hi_true : bm.getD i false = true := findIdx?_some_getD false hf
    have hi_min : ∀ x : Nat, x < i → bm.getD x false = false := by
      intro x hx
      have := findIdx?_some_earlier false hf x hx
      simpa using this
    refine ⟨i, rfl, ?_, ?_, hi_true, hi_min⟩
    · by_contra hlt
      have := hmeta i (by omega)
      rw [this] at hi_true
      exact absurd hi_true (by simp)
    · rcases Nat.lt_or_ge i 1023 with h | h
      · exact h
      · have : i = 1023 := by omega
        rw [this] at hi_true
        rw [htail] at hi_true
        exact absurd hi_true (by simp)

/-! ### Characterizations of the first-free scans and the name lookups -/

theorem root_first_avail_spec (root : List directory_entry)
    (h : root_get_first_available_directory_entry root ≠ -1) :
    ∃ v : Nat, root_get_first_available_directory_entry root = (v : Int) ∧
      v < root.length ∧ (root.getD v default_dir_entry).i_node_id = -1 := by
  unfold root_get_first_available_directory_entry at h ⊢
  cases hf : root.findIdx? (fun e => e.i_node_id == -1) with
  | none => rw [hf] at h; exact absurd rfl h
  | some v =>
    refine ⟨v, rfl, findIdx?_some_lt hf, ?_⟩
    have := findIdx?_some_getD default_dir_entry hf
    simpa using this

theorem inode_first_avail_spec (tab : List i_node)
    (h : inode_tab_get_first_available_entry tab ≠ -1) :
    ∃ v : Nat, inode_tab_get_first_available_entry tab = (v : Int) ∧
      v < tab.length ∧ (tab.getD v default_inode).size = -1 := by
  unfold inode_tab_get_first_available_entry at h ⊢
  cases hf : tab.findIdx? (fun nd => nd.size == -1) with
  | none => rw [hf] at h; exact absurd rfl h
  | some v =>
    refine ⟨v, rfl, findIdx?_some_lt hf, ?_⟩
    have := findIdx?_some_getD default_inode hf
    simpa using this

theorem fdt_first_avail_spec (fdt : List fdt_entry)
    (h : fdt_get_first_available_entry fdt ≠ -1) :
    ∃ v : Nat, fdt_get_first_available_entry fdt = (v : Int) ∧
      v < fdt.length ∧ (fdt.getD v default_fdt_entry).i_node_idx = -1 := by
  unfold fdt_get_first_available_entry at h ⊢
  cases hf : fdt.findIdx? (fun e => e.i_node_idx == -1) with
  | none => rw [hf] at h; exact absurd rfl h
  | some v =>
    refine ⟨v, rfl, findIdx?_some_lt hf, ?_⟩
    have := findIdx?_some_getD default_fdt_entry hf
    simpa using this

theorem root_lookup_some_spec (root : List directory_entry) (filename : String) (j : Nat)
    (h : root_get_directory_entry root filename = some j) :
    j < root.length ∧ (root.getD j default_dir_entry).i_node_id ≠ -1 ∧
      (root.getD j default_dir_entry).file_name = filename := by
  unfold root_get_directory_entry at h
  refine ⟨findIdx?_some_lt h, ?_, ?_⟩
  · have := findIdx?_some_getD default_dir_entry h
    simp only [Bool.and_eq_true, bne_iff_ne, ne_eq, beq_iff_eq] at this
    exact this.1
  · have := findIdx?_some_getD default_dir_entry h
    simp only [Bool.and_eq_true, bne_iff_ne, ne_eq, beq_iff_eq] at this
    exact this.2

theorem root_lookup_none_spec (root : List directory_entry) (filename : String)
    (h : root_get_directory_entry root filename = none) :
    ∀ j : Nat, j < root.length →
      ¬ ((root.getD j default_dir_entry).i_node_id ≠ -1 ∧
         (root.getD j default_dir_entry).file_name = filename) := by
  unfold root_get_directory_entry at h
  intro j hj hand
  have := findIdx?_none_getD default_dir_entry h j hj
  simp only [Bool.and_eq_true, bne_iff_ne, ne_eq, beq_iff_eq] at this
  exact absurd (by simpa using And.intro hand.1 hand.2) (by simpa using this)

theorem via_inode_spec (root : List directory_entry) (idx : Int) (j : Nat)
    (h : root_get_directory_entry_via_inode root idx = some j) :
    j < root.length ∧ (root.getD j default_dir_entry).i_node_id = idx := by
  unfold root_get_directory_entry_via_inode at h
  refine ⟨findIdx?_some_lt h, ?_⟩
  have := findIdx?_some_getD default_dir_entry h
  simpa using this

theorem via_inode_eq_some_of (root : List directory_entry) (idx : Int) (i : Nat)
    (hi : i < root.length) (hid : (root.getD i default_dir_entry).i_node_id = idx)
    (hmin : ∀ j : Nat, j < i → (root.getD j default_dir_entry).i_node_id ≠ idx) :
    root_get_directory_entry_via_inode root idx = some i := by
  unfold root_get_directory_entry_via_inode
  exact findIdx?_eq_some_intro default_dir_entry hi (by simpa using hid)
    (fun j hj => by simpa using hmin j hj)

/-- Under the invariant, an open descriptor points at a unique live
directory entry, and the via-inode lookup finds exactly that entry. -/
theorem via_inode_of_inv (s : SfsState) (inv : SfsInv s) (i : Nat)
    (hi : i < 198) (hlive : (dirE s i).i_node_id ≠ -1)
    (hnz : (dirE s i).i_node_id ≠ 0) :
    root_get_directory_entry_via_inode s.g_root_directory_table (dirE s i).i_node_id =
      some i := by
  apply via_inode_eq_some_of _ _ _ (by rw [inv.dir_len]; omega) rfl
  intro j hj hc
  have hc2 : (dirE s j).i_node_id = (dirE s i).i_node_id := hc
  by_cases hjne : (dirE s j).i_node_id = -1
  · rw [hjne] at hc2
    exact hlive hc2.symm
  · exact inv.id_uniq j i (by omega) (by omega) (by omega) hjne hlive hc2

theorem findIdx?_eq_none_intro {α : Type} {p : α → Bool} {l : List α} (d : α)
    (h : ∀ j, j < l.length → p (l.getD j d) = false) : l.findIdx? p = none := by
  rw [List.findIdx?_eq_none_iff]
  intro x hx
  rcases List.mem_iff_getElem.mp hx with ⟨j, hj, rfl⟩
  have := h j hj
  rwa [List.getD_eq_getElem l d hj] at this

/-- Under the invariant, when the name has no live directory entry the
open-file-table name scan misses. -/
theorem fdt_lookup_none_of_inv (s : SfsState) (inv : SfsInv s) (filename : String)
    (hdir : root_get_directory_entry s.g_root_directory_table filename = none) :
    fdt_get_fd_by_filename s.g_root_directory_table s.g_fdt filename = -1 := by
  have hnone : s.g_fdt.findIdx? (fun e =>
      e.i_node_idx != -1 &&
        (match root_get_directory_entry_via_inode s.g_root_directory_table e.i_node_idx with
         | some j => (s.g_root_directory_table.getD j default_dir_entry).file_name == filename
         | none => false)) = none := by
    apply findIdx?_eq_none_intro default_fdt_entry
    intro f hf
    have hf199 : f < 199 := inv.fdt_len ▸ hf
    by_cases hopen : (s.g_fdt.getD f default_fdt_entry).i_node_idx = -1
    · simp only [hopen, bne_self_eq_false, Bool.false_and]
    · obtain ⟨i, hi, hlive, hid⟩ := inv.fdt_live f hf199 hopen
      simp only [fdtE, dirE] at hid
      have hnz : (dirE s i).i_node_id ≠ 0 := by
        have := (inv.live_id i hi hlive).1
        omega
      have hvia := via_inode_of_inv s inv i hi hlive hnz
      simp only [dirE] at hvia
      rw [← hid, hvia]
      dsimp only
      have hname : (s.g_root_directory_table.getD i default_dir_entry).file_name ≠ filename := by
        intro hc
        exact root_lookup_none_spec _ _ hdir i (by rw [inv.dir_len]; omega) ⟨hlive, hc⟩
      have hbeq : ((s.g_root_directory_table.getD i default_dir_entry).file_name == filename) =
          false := beq_eq_false_iff_ne.mpr hname
      rw [hbeq, Bool.and_false]
  unfold fdt_get_fd_by_filename
  rw [hnone]

/-- Under the invariant, a hit of the open-file-table name scan identifies
an open descriptor whose inode is the live directory entry carrying the
name. -/
theorem fdt_lookup_some_of_inv (s : SfsState) (inv : SfsInv s) (filename : String)
    (hne : fdt_get_fd_by_filename s.g_root_directory_table s.g_fdt filename ≠ -1) :
    ∃ f : Nat, fdt_get_fd_by_filename s.g_root_directory_table s.g_fdt filename = (f : Int) ∧
      f < 199 ∧ (fdtE s f).i_node_idx ≠ -1 ∧
      ∃ i : Nat, i < 198 ∧ (dirE s i).i_node_id ≠ -1 ∧
        (dirE s i).i_node_id = (fdtE s f).i_node_idx ∧
        (dirE s i).file_name = filename := by
  unfold fdt_get_fd_by_filename at hne ⊢
  cases hf : s.g_fdt.findIdx? (fun e =>
      e.i_node_idx != -1 &&
        (match root_get_directory_entry_via_inode s.g_root_directory_table e.i_node_idx with
         | some j => (s.g_root_directory_table.getD j default_dir_entry).file_name == filename
         | none => false)) with
  | none => rw [hf] at hne; exact absurd rfl hne
  | some f =>
    have hf199 : f < 199 := inv.fdt_len ▸ findIdx?_some_lt hf
    have hpred := findIdx?_some_getD default_fdt_entry hf
    simp only [Bool.and_eq_true, bne_iff_ne, ne_eq] at hpred
    obtain ⟨hopen, hmatch⟩ := hpred
    have hopen2 : (fdtE s f).i_node_idx ≠ -1 := hopen
    obtain ⟨i, hi, hlive, hid⟩ := inv.fdt_live f hf199 hopen2
    simp only [fdtE, dirE] at hid
    have hnz : (dirE s i).i_node_id ≠ 0 := by
      have := (inv.live_id i hi hlive).1
      omega
    have hvia := via_inode_of_inv s inv i hi hlive hnz
    simp only [dirE] at hvia
    rw [← hid, hvia] at hmatch
    simp only [beq_iff_eq] at hmatch
    exact ⟨f, rfl, hf199, hopen2, i, hi, hlive, hid, hmatch⟩

/-! ### Releasing the blocks of a removed inode -/

theorem free_prefix_eq_foldl (bs rest : List Int)
    (hbs : ∀ b ∈ bs, b ≠ -1) (hrest : rest = [] ∨ rest.getD 0 0 = -1) :
    ∀ bm : List Bool, free_prefix_blocks bm (bs ++ rest) = bs.foldl bitmap_free_a_block bm := by
  induction bs with
  | nil =>
    intro bm
    rcases hrest with h | h
    · rw [h]
      rfl
    · cases rest with
      | nil => rfl
      | cons r rs =>
        simp only [List.getD_cons_zero] at h
        simp only [List.nil_append, List.foldl_nil]
        unfold free_prefix_blocks
        rw [if_pos h]
  | cons b bs ih =>
    intro bm
    have hb : b ≠ -1 := hbs b (List.mem_cons_self b bs)
    simp only [List.cons_append, List.foldl_cons]
    unfold free_prefix_blocks
    rw [if_neg hb]
    exact ih (fun x hx => hbs x (List.mem_cons_of_mem _ hx)) (bitmap_free_a_block bm b)

theorem foldl_free_getD (bs : List Int) (hbs : ∀ b ∈ bs, 0 ≤ b) :
    ∀ (bm : List Bool) (x : Nat),
      (bs.foldl bitmap_free_a_block bm).getD x false =
        (if (x : Int) ∈ bs then (if x < bm.length then true else false)
         else bm.getD x false) := by
  induction bs with
  | nil =>
    intro bm x
    simp
  | cons b bs ih =>
    intro bm x
    simp only [List.foldl_cons]
    have hb0 : 0 ≤ b := hbs b (List.mem_cons_self b bs)
    have hstep : bitmap_free_a_block bm b = bm.set b.toNat true := by
      unfold bitmap_free_a_block
      rw [if_pos hb0]
    rw [hstep, ih (fun y hy => hbs y (List.mem_cons_of_mem _ hy))]
    by_cases hmem : (x : Int) ∈ bs
    · rw [if_pos hmem, if_pos (List.mem_cons_of_mem _ hmem)]
      simp [List.length_set]
    · rw [if_neg hmem]
      by_cases hxb : (x : Int) = b
      · have hxb2 : b.toNat = x := by omega
        rw [if_pos (by rw [hxb]; exact List.mem_cons_self _ _)]
        by_cases hlt : x < bm.length
        · rw [if_pos (by simpa using hlt)]
          rw [← hxb2]
          exact getD_set_self bm b.toNat true false (by omega)
        · rw [if_neg (by simpa using hlt)]
          rw [List.getD_eq_default _ _ (by simpa [List.length_set] using hlt)]
      · rw [if_neg (by
          intro hc
          rcases List.mem_cons.mp hc with h | h
          · exact hxb h
          · exact hmem h)]
        exact getD_set_ne bm b.toNat x true false (by omega)

theorem foldl_free_count (bs : List Int) :
    ∀ bm : List Bool, bm.length = 1024 →
    (∀ b ∈ bs, 21 ≤ b ∧ b < 1023) → bs.Nodup →
    (∀ b ∈ bs, bm.getD b.toNat false = false) →
    count_occupied_data_blocks (bs.foldl bitmap_free_a_block bm) =
      count_occupied_data_blocks bm - bs.length := by
  induction bs with
  | nil =>
    intro bm _ _ _ _
    simp
  | cons b bs ih =>
    intro bm hlen hrange hnd hocc
    have hb := hrange b (List.mem_cons_self b bs)
    have hstep : bitmap_free_a_block bm b = bm.set b.toNat true := by
      unfold bitmap_free_a_block
      rw [if_pos (by omega)]
    simp only [List.foldl_cons, hstep]
    rw [ih (bm.set b.toNat true) (by simp [List.length_set, hlen])
      (fun y hy => hrange y (List.mem_cons_of_mem _ hy)) (List.nodup_cons.mp hnd).2 ?_]
    · rw [count_occupied_set_true bm b.toNat hlen (by omega) (by omega)
        (hocc b (List.mem_cons_self b bs))]
      simp only [List.length_cons]
      push_cast
      ring
    · intro y hy
      have hyb : y ≠ b := fun hc => (List.nodup_cons.mp hnd).1 (hc ▸ hy)
      rw [getD_set_ne bm b.toNat y.toNat true false ?_]
      · exact hocc y (List.mem_cons_of_mem _ hy)
      · have hy' := hrange y (List.mem_cons_of_mem _ hy)
        omega

/-! ### Arithmetic facts about calculate_block_length -/

theorem calc_bounds (x : Int) (hx : 0 ≤ x) :
    x ≤ calculate_block_length x * 1024 ∧ calculate_block_length x * 1024 < x + 1024 := by
  unfold calculate_block_length FILE_SYSTEM_BLOCK_SIZE
  rw [tdiv_1024_nonneg x hx, tmod_1024_nonneg x hx]
  by_cases h : x % 1024 > 0
  · rw [if_pos h]
    omega
  · rw [if_neg h]
    omega

theorem calc_zero : calculate_block_length 0 = 0 := by decide

theorem calc_mono (x y : Int) (hx : 0 ≤ x) (hxy : x ≤ y) :
    calculate_block_length x ≤ calculate_block_length y := by
  have h1 := calc_bounds x hx
  have h2 := calc_bounds y (by omega)
  omega

theorem calc_succ_block (x : Int) (hx : 0 ≤ x) (hal : x.tmod 1024 = 0) (b : Int)
    (hb1 : 0 < b) (hb2 : b ≤ 1024) :
    calculate_block_length (x + b) = calculate_block_length x + 1 := by
  have h1 := calc_bounds x hx
  have h2 := calc_bounds (x + b) (by omega)
  rw [tmod_1024_nonneg x hx] at hal
  have hxal : calculate_block_length x * 1024 = x := by
    unfold calculate_block_length FILE_SYSTEM_BLOCK_SIZE
    rw [tdiv_1024_nonneg x hx, tmod_1024_nonneg x hx, if_neg (by omega)]
    omega
  omega

theorem calc_same_block (x b : Int) (hx : 0 ≤ x) (hal : x.tmod 1024 ≠ 0)
    (hb1 : 0 ≤ b) (hb2 : x + b ≤ calculate_block_length x * 1024) :
    calculate_block_length (x + b) = calculate_block_length x := by
  have h1 := calc_bounds x hx
  have h2 := calc_bounds (x + b) (by omega)
  rw [tmod_1024_nonneg x hx] at hal
  have hxal : calculate_block_length x * 1024 < x + 1024 := h1.2
  omega

/-! ### The direct-slot allocation step of an appending write -/

theorem getD_set_false_mono (bm : List Bool) (b0 x : Nat) (h : bm.getD x false = false) :
    (bm.set b0 false).getD x false = false := by
  by_cases hx : x = b0
  · subst hx
    by_cases hlt : x < bm.length
    · rw [getD_set_self _ _ _ _ hlt]
    · rw [List.getD_eq_default _ _ (by simpa [List.length_set] using hlt)]
  · rw [getD_set_ne _ _ _ _ _ (fun hc => hx hc.symm)]
    exact h

theorem cmin_le_left (a b : Int) : cmin a b ≤ a := by
  unfold cmin
  split <;> omega

theorem cmin_le_right (a b : Int) : cmin a b ≤ b := by
  unfold cmin
  split <;> omega

theorem cmin_pos (a b : Int) (ha : 0 < a) (hb : 0 < b) : 0 < cmin a b := by
  unfold cmin
  split <;> omega

/-- One allocation of an appending write: with the cursor block-aligned at
ptr inside the direct range and a free data block available, the assignment
occupies the first free block and stores it in direct slot ptr / 1024. -/
theorem assign_direct_spec (s sc : SfsState) (idx : Nat) (S0 ptr : Int)
    (inv : SfsInv s) (mid : WriteMid s sc idx S0 ptr) (hidx : idx < 200)
    (h0 : 0 ≤ S0) (hS : S0 ≤ ptr) (hal : ptr.tmod 1024 = 0) (hlt : ptr < 12 * 1024)
    (hcount : count_occupied_data_blocks sc.g_bitmap < 1002) :
    ∃ b0 : Nat, 21 ≤ b0 ∧ b0 < 1023 ∧ bmFree sc b0 = true ∧
      inode_assign_new_block sc idx =
        ({ sc with
            g_bitmap := sc.g_bitmap.set b0 false,
            g_inode_table := sc.g_inode_table.set idx
              { inodeN sc idx with
                direct_pointers := ((inodeN sc idx).direct_pointers.set
                  (calculate_block_length ptr).toNat ((b0 : Nat) : Int)) } },
          ((b0 : Nat) : Int)) := by
  have hptr0 : 0 ≤ ptr := by omega
  have hcb := calc_bounds ptr hptr0
  have hmod : ptr % 1024 = 0 := by rwa [tmod_1024_nonneg ptr hptr0] at hal
  have hca : (calculate_block_length ptr).toNat < 12 := by omega
  -- the first free block of the current bitmap
  obtain ⟨b0, hfind, hb1, hb2, hfree, _⟩ := find_first_block_spec sc.g_bitmap mid.bm_len
    (fun b hb => mid.bm_mono b (inv.meta_occ b hb))
    (mid.bm_mono 1023 inv.tail_occ)
    (by
      rcases exists_free_data_block sc.g_bitmap hcount with ⟨b, hb1, hb2, hb3⟩
      exact ⟨b, hb1, hb2, hb3⟩)
  -- the first free direct slot is slot ceil(ptr/1024)
  have hscan : (sc.g_inode_table.getD idx default_inode).direct_pointers.findIdx?
      (fun p => p == -1) = some (calculate_block_length ptr).toNat := by
    apply findIdx?_eq_some_intro (0 : Int)
    · have := mid.dp_len
      rw [inodeN] at this
      rw [this]
      exact hca
    · have := (mid.dp_active (calculate_block_length ptr).toNat hca).2 le_rfl
      rw [dp, inodeN] at this
      show ((sc.g_inode_table.getD idx default_inode).direct_pointers.getD
        (calculate_block_length ptr).toNat 0 == -1) = true
      rw [this]
      rfl
    · intro j hj
      have hj12 : j < 12 := by omega
      have := (mid.dp_active j hj12).1 (by omega)
      rw [dp, inodeN] at this
      have hjne : (sc.g_inode_table.getD idx default_inode).direct_pointers.getD j 0 ≠ -1 := by
        omega
      show ((sc.g_inode_table.getD idx default_inode).direct_pointers.getD j 0 == -1) = false
      simpa using hjne
  refine ⟨b0, hb1, hb2, hfree, ?_⟩
  unfold inode_assign_new_block
  rw [hfind]
  have hocc : bitmap_occupy_a_block sc.g_bitmap (b0 : Int) = sc.g_bitmap.set b0 false := by
    unfold bitmap_occupy_a_block
    rw [if_pos (by positivity)]
    simp
  dsimp only
  rw [if_neg (by omega)]
  rw [hscan]
  dsimp only
  rw [hocc]
  rfl

/-! ### The write loop in append mode -/

theorem btw_spec (ptr length : Int) (hptr : 0 ≤ ptr) (hl : 1 ≤ length) :
    1 ≤ cmin (FILE_SYSTEM_BLOCK_SIZE - ptr.tmod FILE_SYSTEM_BLOCK_SIZE)
        (if length ≥ FILE_SYSTEM_BLOCK_SIZE then FILE_SYSTEM_BLOCK_SIZE else length) ∧
    cmin (FILE_SYSTEM_BLOCK_SIZE - ptr.tmod FILE_SYSTEM_BLOCK_SIZE)
        (if length ≥ FILE_SYSTEM_BLOCK_SIZE then FILE_SYSTEM_BLOCK_SIZE else length) ≤ length ∧
    ptr + cmin (FILE_SYSTEM_BLOCK_SIZE - ptr.tmod FILE_SYSTEM_BLOCK_SIZE)
        (if length ≥ FILE_SYSTEM_BLOCK_SIZE then FILE_SYSTEM_BLOCK_SIZE else length) ≤
      (ptr / 1024 + 1) * 1024 ∧
    cmin (FILE_SYSTEM_BLOCK_SIZE - ptr.tmod FILE_SYSTEM_BLOCK_SIZE)
        (if length ≥ FILE_SYSTEM_BLOCK_SIZE then FILE_SYSTEM_BLOCK_SIZE else length) ≤ 1024 := by
  simp only [FILE_SYSTEM_BLOCK_SIZE, cmin]
  rw [tmod_1024_nonneg ptr hptr]
  split_ifs <;> omega

/-- WriteMid does not mention the device, so device writes preserve it. -/
theorem WriteMid_disk_irrel (s sc : SfsState) (idx : Nat) (S0 ptr : Int)
    (d : Int → BlockContent) (mid : WriteMid s sc idx S0 ptr) :
    WriteMid s { sc with disk := d } idx S0 ptr :=
  ⟨mid.dir_eq, mid.fdt_eq, mid.itab_len, mid.other_inodes, mid.size_eq, mid.ind_eq,
   mid.dp_len, mid.dp_old, mid.dp_active, mid.dp_new_free, mid.dp_distinct, mid.bm_len,
   mid.bm_mono, mid.bm_count⟩

theorem sfs_fwrite_loop_append (s : SfsState) (idx : Nat) (buf : Nat → Int) (inv : SfsInv s)
    (hidx : idx < 200) :
    ∀ (fuel : Nat) (sc : SfsState) (bufOff : Nat) (S0 ptr length total : Int),
    WriteMid s sc idx S0 ptr →
    0 ≤ S0 → S0 ≤ ptr → 0 ≤ length → length ≤ (fuel : Int) →
    ptr + length ≤ 12 * 1024 →
    count_occupied_data_blocks s.g_bitmap +
      (calculate_block_length (ptr + length) - calculate_block_length S0) ≤ 1002 →
    WriteMid s (sfs_fwrite_loop sc idx buf fuel bufOff ptr ptr length total).1 idx S0
      (ptr + length) ∧
    (sfs_fwrite_loop sc idx buf fuel bufOff ptr ptr length total).2.1 = ptr + length ∧
    (sfs_fwrite_loop sc idx buf fuel bufOff ptr ptr length total).2.2.1 = ptr + length ∧
    (sfs_fwrite_loop sc idx buf fuel bufOff ptr ptr length total).2.2.2 = total + length := by
  intro fuel
  induction fuel with
  | zero =>
    intro sc bufOff S0 ptr length total mid h0 hS hl hfuel hcap hcount
    obtain rfl : length = 0 := by omega
    simp only [sfs_fwrite_loop]
    rw [show ptr + 0 = ptr by ring, show total + 0 = total by ring]
    exact ⟨mid, rfl, rfl, rfl⟩
  | succ n ih =>
    intro sc bufOff S0 ptr length total mid h0 hS hl hfuel hcap hcount
    by_cases hze : length ≤ 0
    · obtain rfl : length = 0 := by omega
      simp only [sfs_fwrite_loop, if_pos (le_refl (0 : Int))]
      rw [show ptr + 0 = ptr by ring, show total + 0 = total by ring]
      exact ⟨mid, rfl, rfl, rfl⟩
    · have hl1 : 1 ≤ length := by omega
      have hptr0 : 0 ≤ ptr := by omega
      obtain ⟨hbtw1, hbtw2, hbtw3, hbtw4⟩ := btw_spec ptr length hptr0 hl1
      have hcbp := calc_bounds ptr hptr0
      have hcbS := calc_bounds S0 h0
      have hcbL := calc_bounds (ptr + length) (by omega)
      have hmod : ptr.tmod 1024 = ptr % 1024 := tmod_1024_nonneg ptr hptr0
      simp only [sfs_fwrite_loop]
      rw [if_neg hze]
      by_cases hal : ptr.tmod FILE_SYSTEM_BLOCK_SIZE = 0 ∧ ptr ≥ ptr
      · -- aligned: allocate a fresh block into the next direct slot
        rw [if_pos hal]
        have hal1 : ptr.tmod 1024 = 0 := hal.1
        have hmod0 : ptr % 1024 = 0 := by omega
        have hlt : ptr < 12 * 1024 := by omega
        have hcsucc : ∀ b : Int, 0 < b → b ≤ 1024 →
            calculate_block_length (ptr + b) = calculate_block_length ptr + 1 :=
          fun b hb1 hb2 => calc_succ_block ptr hptr0 hal1 b hb1 hb2
        have hgrow : calculate_block_length ptr + 1 ≤ calculate_block_length (ptr + length) := by
          have h1 := hcsucc 1 (by omega) (by omega)
          have := calc_mono (ptr + 1) (ptr + length) (by omega) (by omega)
          omega
        have hcount_sc : count_occupied_data_blocks sc.g_bitmap < 1002 := by
          rw [mid.bm_count]
          omega
        obtain ⟨b0, hb1, hb2, hfree, hassign⟩ :=
          assign_direct_spec s sc idx S0 ptr inv mid hidx h0 hS hal1 hlt hcount_sc
        rw [hassign]
        dsimp only
        set btw := cmin (FILE_SYSTEM_BLOCK_SIZE - ptr.tmod FILE_SYSTEM_BLOCK_SIZE)
          (if length ≥ FILE_SYSTEM_BLOCK_SIZE then FILE_SYSTEM_BLOCK_SIZE else length) with hbtwdef
        have hsucc : calculate_block_length (ptr + btw) = calculate_block_length ptr + 1 :=
          hcsucc btw (by omega) (by omega)
        have ha12 : (calculate_block_length ptr).toNat < 12 := by omega
        -- the freshly written inode entry
        have hlen3 : sc.g_inode_table.length = 200 := mid.itab_len
        have hn3 : ∀ sc3 : SfsState, sc3.g_inode_table = sc.g_inode_table.set idx
            { inodeN sc idx with
              direct_pointers := ((inodeN sc idx).direct_pointers.set
                (calculate_block_length ptr).toNat ((b0 : Nat) : Int)) } →
            inodeN sc3 idx =
            { inodeN sc idx with
              direct_pointers := ((inodeN sc idx).direct_pointers.set
                (calculate_block_length ptr).toNat ((b0 : Nat) : Int)) } := by
          intro sc3 h3
          rw [inodeN, h3]
          exact getD_set_self _ _ _ _ (by rw [hlen3]; exact hidx)
        have hmid3 : WriteMid s
            { sc with
              g_bitmap := sc.g_bitmap.set b0 false,
              g_inode_table := sc.g_inode_table.set idx
                { inodeN sc idx with
                  direct_pointers := ((inodeN sc idx).direct_pointers.set
                    (calculate_block_length ptr).toNat ((b0 : Nat) : Int)) },
              disk := Function.update sc.disk ((b0 : Nat) : Int)
                (.bytes (fun i => if (i : Int) < btw then buf (bufOff + i) else 0)) }
            idx S0 (ptr + btw) := by
          set nodeNew : i_node :=
            { inodeN sc idx with
              direct_pointers := ((inodeN sc idx).direct_pointers.set
                (calculate_block_length ptr).toNat ((b0 : Nat) : Int)) } with hnodeNew
          have hni : ∀ k : Nat, dp nodeNew k =
              (if k = (calculate_block_length ptr).toNat then ((b0 : Nat) : Int)
               else dp (inodeN sc idx) k) := by
            intro k
            by_cases hk : k = (calculate_block_length ptr).toNat
            · subst hk
              rw [if_pos rfl, dp, hnodeNew]
              exact getD_set_self _ _ _ _ (by rw [mid.dp_len]; exact ha12)
            · rw [if_neg hk, dp, dp, hnodeNew]
              exact getD_set_ne _ _ _ _ _ (fun hc => hk hc.symm)
          have hfreeocc : ∀ x : Nat, bmFree sc x = false →
              (sc.g_bitmap.set b0 false).getD x false = false :=
            fun x hx => getD_set_false_mono sc.g_bitmap b0 x hx
          have hSle : (calculate_block_length S0).toNat ≤ (calculate_block_length ptr).toNat := by
            have := calc_mono S0 ptr h0 hS
            omega
          refine ⟨mid.dir_eq, mid.fdt_eq, ?_, ?_, ?_, ?_, ?_, ?_, ?_, ?_, ?_, ?_, ?_, ?_⟩
          · simpa [List.length_set] using mid.itab_len
          · intro m hm
            rw [inodeN]
            dsimp only
            rw [getD_set_ne _ _ _ _ _ (fun hc => hm hc.symm)]
            exact mid.other_inodes m hm
          · rw [hn3 _ rfl]
            exact mid.size_eq
          · rw [hn3 _ rfl]
            exact mid.ind_eq
          · rw [hn3 _ rfl, hnodeNew]
            simpa [List.length_set] using mid.dp_len
          · intro k hk
            rw [show dp (inodeN { sc with
                g_bitmap := sc.g_bitmap.set b0 false,
                g_inode_table := sc.g_inode_table.set idx nodeNew,
                disk := Function.update sc.disk ((b0 : Nat) : Int)
                  (.bytes (fun i => if (i : Int) < btw then buf (bufOff + i) else 0)) } idx) k =
              dp nodeNew k from by rw [hn3 _ rfl]]
            rw [hni k]
            rw [if_neg (by omega)]
            exact mid.dp_old k (by omega)
          · intro k hk12
            rw [show dp (inodeN { sc with
                g_bitmap := sc.g_bitmap.set b0 false,
                g_inode_table := sc.g_inode_table.set idx nodeNew,
                disk := Function.update sc.disk ((b0 : Nat) : Int)
                  (.bytes (fun i => if (i : Int) < btw then buf (bufOff + i) else 0)) } idx) k =
              dp nodeNew k from by rw [hn3 _ rfl]]
            rw [hni k]
            constructor
            · intro hklt
              rw [hsucc] at hklt
              by_cases hk : k = (calculate_block_length ptr).toNat
              · rw [if_pos hk]
                refine ⟨by omega, by omega, ?_⟩
                rw [bmFree]
                dsimp only
                rw [show ((b0 : Nat) : Int).toNat = b0 by omega]
                exact getD_set_self _ _ _ _ (by rw [mid.bm_len]; omega)
              · rw [if_neg hk]
                have hko : k < (calculate_block_length ptr).toNat := by omega
                obtain ⟨hx1, hx2, hx3⟩ := (mid.dp_active k hk12).1 hko
                exact ⟨hx1, hx2, hfreeocc _ hx3⟩
            · intro hkge
              rw [hsucc] at hkge
              rw [if_neg (by omega)]
              exact (mid.dp_active k hk12).2 (by omega)
          · intro k hk1 hk2
            rw [show dp (inodeN { sc with
                g_bitmap := sc.g_bitmap.set b0 false,
                g_inode_table := sc.g_inode_table.set idx nodeNew,
                disk := Function.update sc.disk ((b0 : Nat) : Int)
                  (.bytes (fun i => if (i : Int) < btw then buf (bufOff + i) else 0)) } idx) k =
              dp nodeNew k from by rw [hn3 _ rfl]]
            rw [hni k]
            rw [hsucc] at hk2
            by_cases hk : k = (calculate_block_length ptr).toNat
            · rw [if_pos hk]
              rw [show ((b0 : Nat) : Int).toNat = b0 by omega]
              -- b0 was free in sc, hence free in s
              by_cases hsf : bmFree s b0 = true
              · exact hsf
              · exfalso
                have hx := mid.bm_mono b0 (by simpa using hsf)
                rw [hx] at hfree
                exact absurd hfree (by simp)
            · rw [if_neg hk]
              exact mid.dp_new_free k hk1 (by omega)
          · intro k l hk hl2 hkl
            rw [hsucc] at hk hl2
            have hq : ∀ k2 : Nat, dp (inodeN { sc with
                g_bitmap := sc.g_bitmap.set b0 false,
                g_inode_table := sc.g_inode_table.set idx nodeNew,
                disk := Function.update sc.disk ((b0 : Nat) : Int)
                  (.bytes (fun i => if (i : Int) < btw then buf (bufOff + i) else 0)) } idx) k2 =
              dp nodeNew k2 := fun k2 => by rw [hn3 _ rfl]
            rw [hq k, hq l, hni k, hni l]
            by_cases hka : k = (calculate_block_length ptr).toNat
            · rw [if_pos hka]
              have hla : l ≠ (calculate_block_length ptr).toNat := by omega
              rw [if_neg hla]
              have hocc := ((mid.dp_active l (by omega)).1 (by omega)).2.2
              intro hc
              rw [← hc] at hocc
              rw [show (((b0 : Nat) : Int)).toNat = b0 by omega] at hocc
              rw [hocc] at hfree
              exact absurd hfree (by simp)
            · rw [if_neg hka]
              by_cases hla : l = (calculate_block_length ptr).toNat
              · rw [if_pos hla]
                have hocc := ((mid.dp_active k (by omega)).1 (by omega)).2.2
                intro hc
                rw [hc] at hocc
                rw [show (((b0 : Nat) : Int)).toNat = b0 by omega] at hocc
                rw [hocc] at hfree
                exact absurd hfree (by simp)
              · rw [if_neg hla]
                exact mid.dp_distinct k l (by omega) (by omega) hkl
          · simpa [List.length_set] using mid.bm_len
          · intro b hb
            exact hfreeocc b (mid.bm_mono b hb)
          · rw [show ({ sc with
                g_bitmap := sc.g_bitmap.set b0 false,
                g_inode_table := sc.g_inode_table.set idx nodeNew,
                disk := Function.update sc.disk ((b0 : Nat) : Int)
                  (.bytes (fun i => if (i : Int) < btw then buf (bufOff + i) else 0)) } :
              SfsState).g_bitmap = sc.g_bitmap.set b0 false from rfl]
            rw [count_occupied_set_false sc.g_bitmap b0 mid.bm_len hb1 hb2 hfree]
            rw [mid.bm_count, hsucc]
            ring
        have hrec := ih _ (bufOff + btw.toNat) S0 (ptr + btw) (length - btw) (total + btw)
          hmid3 h0 (by omega) (by omega) (by
            push_cast
            omega) (by omega) (by
            rw [show ptr + btw + (length - btw) = ptr + length by ring]
            exact hcount)
        rw [show ptr + btw + (length - btw) = ptr + length by ring] at hrec
        rw [show total + btw + (length - btw) = total + length by ring] at hrec
        exact hrec
      · -- unaligned: a read-modify-write inside the final block of the file
        rw [if_neg hal]
        set btw := cmin (FILE_SYSTEM_BLOCK_SIZE - ptr.tmod FILE_SYSTEM_BLOCK_SIZE)
          (if length ≥ FILE_SYSTEM_BLOCK_SIZE then FILE_SYSTEM_BLOCK_SIZE else length) with hbtwdef
        have halm : ptr % 1024 ≠ 0 := by
          intro hc
          refine hal ⟨?_, le_refl ptr⟩
          show ptr.tmod 1024 = 0
          omega
        have hsame : calculate_block_length (ptr + btw) = calculate_block_length ptr := by
          apply calc_same_block ptr btw hptr0 (by omega) (by omega)
          omega
        have hmid2 : WriteMid s sc idx S0 (ptr + btw) := by
          refine ⟨mid.dir_eq, mid.fdt_eq, mid.itab_len, mid.other_inodes, mid.size_eq,
            mid.ind_eq, mid.dp_len, mid.dp_old, ?_, ?_, ?_, mid.bm_len, mid.bm_mono, ?_⟩
          · intro k hk
            rw [hsame]
            exact mid.dp_active k hk
          · intro k hk1 hk2
            rw [hsame] at hk2
            exact mid.dp_new_free k hk1 hk2
          · intro k l hk hl2 hkl
            rw [hsame] at hk hl2
            exact mid.dp_distinct k l hk hl2 hkl
          · rw [hsame]
            exact mid.bm_count
        rw [show cmax ptr (ptr + btw) = ptr + btw from by unfold cmax; rw [if_neg (by omega)]]
        have harith1 : ptr + length = ptr + btw + (length - btw) := by ring
        have harith2 : total + length = total + btw + (length - btw) := by ring
        rw [harith1, harith2]
        exact ih _ (bufOff + btw.toNat) S0 (ptr + btw) (length - btw) (total + btw)
          (WriteMid_disk_irrel s sc idx S0 (ptr + btw) _ hmid2) h0 (by omega) (by omega)
          (by push_cast; omega) (by omega) (by rw [← harith1]; exact hcount)

/-! ### Preservation of the invariant by a create -/

theorem sfs_fopen_create_eq (s : SfsState) (filename : String)
    (hfd : fdt_get_fd_by_filename s.g_root_directory_table s.g_fdt filename = -1)
    (hdir : root_get_directory_entry s.g_root_directory_table filename = none)
    (hroot : root_get_first_available_directory_entry s.g_root_directory_table ≠ -1)
    (hinode : inode_tab_get_first_available_entry s.g_inode_table ≠ -1)
    (hfdt : fdt_get_first_available_entry s.g_fdt ≠ -1) :
    (sfs_fopen s filename).2 = fdt_get_first_available_entry s.g_fdt ∧
    (sfs_fopen s filename).1.g_fdt =
      s.g_fdt.set (fdt_get_first_available_entry s.g_fdt).toNat
        ⟨inode_tab_get_first_available_entry s.g_inode_table, 0⟩ ∧
    (sfs_fopen s filename).1.g_root_directory_table =
      s.g_root_directory_table.set
        (root_get_first_available_directory_entry s.g_root_directory_table).toNat
        ⟨inode_tab_get_first_available_entry s.g_inode_table, filename⟩ ∧
    (sfs_fopen s filename).1.g_inode_table =
      s.g_inode_table.set (inode_tab_get_first_available_entry s.g_inode_table).toNat
        { (s.g_inode_table.getD
            (inode_tab_get_first_available_entry s.g_inode_table).toNat
            default_inode) with size := 0 } ∧
    (sfs_fopen s filename).1.g_bitmap = s.g_bitmap := by
  unfold sfs_fopen
  rw [hfd]
  rw [if_neg (by simp), hdir]
  dsimp only
  rw [if_neg (by push_neg; exact ⟨hroot, hinode, hfdt⟩)]
  unfold flush_root_directory_table flush_i_node_table
  exact ⟨rfl, rfl, rfl, rfl, rfl⟩

theorem exec_create_inv (s : SfsState) (inv : SfsInv s) (name : String)
    (hv : op_valid s (.create name)) : SfsInv (exec_op s (.create name)) := by
  obtain ⟨hname, hdir, hroot, hinode, hfdt⟩ := hv
  have hfd := fdt_lookup_none_of_inv s inv name hdir
  obtain ⟨vr, hvr, hvrlt, hvrempty⟩ := root_first_avail_spec _ hroot
  obtain ⟨vi, hvi, hvilt, hvifree⟩ := inode_first_avail_spec _ hinode
  obtain ⟨vf, hvf, hvflt, hvffree⟩ := fdt_first_avail_spec _ hfdt
  obtain ⟨hres, hfdt2, hdir2, hitab2, hbm2⟩ := sfs_fopen_create_eq s name hfd hdir hroot hinode hfdt
  rw [hvr, hvf, hvi] at *
  have hvrlt2 : vr < 199 := by rw [inv.dir_len] at hvrlt; exact hvrlt
  have hvilt2 : vi < 200 := by rw [inv.itab_len] at hvilt; exact hvilt
  have hvflt2 : vf < 199 := by rw [inv.fdt_len] at hvflt; exact hvflt
  have hvrn : ((vr : Int)).toNat = vr := by omega
  have hvin : ((vi : Int)).toNat = vi := by omega
  have hvfn : ((vf : Int)).toNat = vf := by omega
  rw [hvrn] at hdir2
  rw [hvin] at hitab2
  rw [hvfn] at hfdt2
  -- slot 198 is the phantom, never the free slot found
  have hvr198 : vr ≠ 198 := by
    intro hc
    rw [hc] at hvrempty
    have := inv.phantom
    rw [dirE] at this
    rw [this] at hvrempty
    exact absurd hvrempty (by norm_num)
  have hvr198lt : vr < 198 := by omega
  -- the chosen inode is not the root inode and is fresh
  have hvi0 : vi ≠ 0 := by
    intro hc
    rw [hc] at hvifree
    exact inv.root0 hvifree
  obtain ⟨hfresh_dp, hfresh_ind⟩ := inv.fresh_shape vi hvilt2 hvifree
  -- no live directory entry references the fresh inode
  have hnotref : ∀ i : Nat, i < 199 → (dirE s i).i_node_id ≠ -1 →
      (dirE s i).i_node_id ≠ (vi : Int) := by
    intro i hi hlive hc
    by_cases h198 : i = 198
    · rw [h198] at hc
      rw [inv.phantom] at hc
      dsimp only at hc
      omega
    · have hi198 : i < 198 := by omega
      have hx := (inv.live_node i hi198 hlive).1
      rw [hc] at hx
      rw [show ((vi : Int)).toNat = vi by omega] at hx
      have hvifree2 : (inodeN s vi).size = -1 := hvifree
      rw [hvifree2] at hx
      omega
  -- the new state
  set s2 := (sfs_fopen s name).1 with hs2
  have hdirE2 : ∀ i : Nat, i ≠ vr → dirE s2 i = dirE s i := by
    intro i hi
    rw [dirE, dirE, hdir2]
    exact getD_set_ne _ _ _ _ _ (fun hc => hi hc.symm)
  have hdirE2vr : dirE s2 vr = ⟨(vi : Int), name⟩ := by
    rw [dirE, hdir2]
    exact getD_set_self _ _ _ _ (by rw [inv.dir_len]; omega)
  have hinodeN2 : ∀ m : Nat, m ≠ vi → inodeN s2 m = inodeN s m := by
    intro m hm
    rw [inodeN, inodeN, hitab2]
    exact getD_set_ne _ _ _ _ _ (fun hc => hm hc.symm)
  have hinodeN2vi : inodeN s2 vi = { inodeN s vi with size := 0 } := by
    rw [inodeN, hitab2]
    exact getD_set_self _ _ _ _ (by rw [inv.itab_len]; omega)
  have hfdtE2 : ∀ f : Nat, f ≠ vf → fdtE s2 f = fdtE s f := by
    intro f hf
    rw [fdtE, fdtE, hfdt2]
    exact getD_set_ne _ _ _ _ _ (fun hc => hf hc.symm)
  have hfdtE2vf : fdtE s2 vf = ⟨(vi : Int), 0⟩ := by
    rw [fdtE, hfdt2]
    exact getD_set_self _ _ _ _ (by rw [inv.fdt_len]; omega)
  have hbmFree2 : ∀ b : Nat, bmFree s2 b = bmFree s b := by
    intro b
    rw [bmFree, bmFree, hbm2]
  -- the id of a live entry viewed through the update
  have hlive2 : ∀ i : Nat, i < 198 → i ≠ vr → (dirE s2 i).i_node_id ≠ -1 →
      (dirE s i).i_node_id ≠ -1 := by
    intro i hi hivr h2
    rwa [hdirE2 i hivr] at h2
  show SfsInv s2
  refine ⟨?_, ?_, ?_, ?_, ?_, ?_, ?_, ?_, ?_, ?_, ?_, ?_, ?_, ?_, ?_, ?_, ?_, ?_, ?_, ?_⟩
  · rw [hitab2]
    simpa [List.length_set] using inv.itab_len
  · rw [hdir2]
    simpa [List.length_set] using inv.dir_len
  · rw [hfdt2]
    simpa [List.length_set] using inv.fdt_len
  · rw [hbm2]
    exact inv.bm_len
  · intro b hb
    rw [hbmFree2]
    exact inv.meta_occ b hb
  · rw [hbmFree2]
    exact inv.tail_occ
  · rw [hdirE2 198 (by omega)]
    exact inv.phantom
  · rw [hinodeN2 0 (fun hc => hvi0 hc.symm)]
    exact inv.root0
  · intro m hm hsz
    by_cases hmvi : m = vi
    · rw [hmvi, hinodeN2vi] at hsz
      simp at hsz
    · rw [hinodeN2 m hmvi] at hsz ⊢
      exact inv.fresh_shape m hm hsz
  · intro i hi hlive
    by_cases hivr : i = vr
    · rw [hivr, hdirE2vr]
      dsimp only
      omega
    · rw [hdirE2 i hivr] at hlive ⊢
      exact inv.live_id i hi hlive
  · intro i hi hlive
    by_cases hivr : i = vr
    · rw [hivr, hdirE2vr]
      exact hname
    · rw [hdirE2 i hivr] at hlive ⊢
      exact inv.live_name i hi hlive
  · intro i hi hlive
    by_cases hivr : i = vr
    · rw [hivr, hdirE2vr]
      dsimp only
      rw [show ((vi : Int)).toNat = vi by omega]
      rw [hinodeN2vi]
      dsimp only
      refine ⟨by norm_num, by norm_num, ?_, ?_⟩
      · exact hfresh_ind
      · rw [hfresh_dp]
        simp
    · rw [hdirE2 i hivr] at hlive ⊢
      have hidne := hnotref i (by omega) hlive
      have hid := inv.live_id i hi hlive
      rw [hinodeN2 (dirE s i).i_node_id.toNat (by omega)]
      exact inv.live_node i hi hlive
  · intro i hi hlive k hk
    by_cases hivr : i = vr
    · rw [hivr, hdirE2vr]
      dsimp only
      rw [show ((vi : Int)).toNat = vi by omega]
      rw [hinodeN2vi]
      constructor
      · intro hklt
        exfalso
        unfold activeLen at hklt
        dsimp only at hklt
        rw [calc_zero] at hklt
        omega
      · intro _
        rw [dp]
        dsimp only
        rw [hfresh_dp]
        rw [List.getD_eq_getElem _ _ (by simpa using hk)]
        rw [List.getElem_replicate]
    · rw [hdirE2 i hivr] at hlive ⊢
      have hidne := hnotref i (by omega) hlive
      have hid := inv.live_id i hi hlive
      rw [hinodeN2 (dirE s i).i_node_id.toNat (by omega)]
      have := inv.live_dp i hi hlive k hk
      refine ⟨fun h2 => ?_, (this).2⟩
      obtain ⟨hx1, hx2, hx3⟩ := (this).1 h2
      exact ⟨hx1, hx2, by rw [hbmFree2]; exact hx3⟩
  · intro i j hi hj hij hlivei hlivej
    by_cases hivr : i = vr
    · subst hivr
      rw [hdirE2vr]
      rw [hdirE2 j (by omega)] at hlivej ⊢
      intro hc
      exact root_lookup_none_spec _ _ hdir j (by rw [inv.dir_len]; omega) ⟨hlivej, hc.symm⟩
    · by_cases hjvr : j = vr
      · subst hjvr
        rw [hdirE2vr]
        rw [hdirE2 i hivr] at hlivei ⊢
        intro hc
        exact root_lookup_none_spec _ _ hdir i (by rw [inv.dir_len]; omega) ⟨hlivei, hc⟩
      · rw [hdirE2 i hivr] at hlivei ⊢
        rw [hdirE2 j hjvr] at hlivej ⊢
        exact inv.name_uniq i j hi hj hij hlivei hlivej
  · intro i j hi hj hij hlivei hlivej
    by_cases hivr : i = vr
    · subst hivr
      rw [hdirE2vr]
      rw [hdirE2 j (by omega)] at hlivej ⊢
      intro hc
      exact hnotref j hj hlivej hc.symm
    · by_cases hjvr : j = vr
      · subst hjvr
        rw [hdirE2vr]
        rw [hdirE2 i hivr] at hlivei ⊢
        intro hc
        exact hnotref i hi hlivei hc
      · rw [hdirE2 i hivr] at hlivei ⊢
        rw [hdirE2 j hjvr] at hlivej ⊢
        exact inv.id_uniq i j hi hj hij hlivei hlivej
  · intro i j hi hj hlivei hlivej k l hk hl hkl
    by_cases hivr : i = vr
    · exfalso
      subst hivr
      rw [hdirE2vr] at hk
      dsimp only at hk
      rw [show ((vi : Int)).toNat = vi by omega, hinodeN2vi] at hk
      unfold activeLen at hk
      dsimp only at hk
      rw [calc_zero] at hk
      omega
    · by_cases hjvr : j = vr
      · exfalso
        subst hjvr
        rw [hdirE2vr] at hl
        dsimp only at hl
        rw [show ((vi : Int)).toNat = vi by omega, hinodeN2vi] at hl
        unfold activeLen at hl
        dsimp only at hl
        rw [calc_zero] at hl
        omega
      · rw [hdirE2 i hivr] at hlivei hk ⊢
        rw [hdirE2 j hjvr] at hlivej hl ⊢
        have hidi := hnotref i (by omega) hlivei
        have hidj := hnotref j (by omega) hlivej
        have hi2 := inv.live_id i hi hlivei
        have hj2 := inv.live_id j hj hlivej
        rw [hinodeN2 (dirE s i).i_node_id.toNat (by omega)] at hk ⊢
        rw [hinodeN2 (dirE s j).i_node_id.toNat (by omega)] at hl ⊢
        exact inv.blocks_disjoint i j hi hj hlivei hlivej k l hk hl hkl
  · intro f hf hopen
    by_cases hfvf : f = vf
    · subst hfvf
      rw [hfdtE2vf]
      refine ⟨vr, hvr198lt, ?_, ?_⟩
      · rw [hdirE2vr]
        dsimp only
        omega
      · rw [hdirE2vr]
    · rw [hfdtE2 f hfvf] at hopen ⊢
      obtain ⟨i, hi, hlive, hid⟩ := inv.fdt_live f hf hopen
      refine ⟨i, hi, ?_, ?_⟩
      · by_cases hivr : i = vr
        · subst hivr
          rw [hdirE2vr]
          dsimp only
          omega
        · rw [hdirE2 i hivr]
          exact hlive
      · by_cases hivr : i = vr
        · exfalso
          subst hivr
          rw [dirE] at hlive
          exact hlive hvrempty
        · rw [hdirE2 i hivr]
          exact hid
  · intro f hf hopen
    by_cases hfvf : f = vf
    · subst hfvf
      rw [hfdtE2vf]
      dsimp only
      rw [show ((vi : Int)).toNat = vi by omega, hinodeN2vi]
    · rw [hfdtE2 f hfvf] at hopen ⊢
      obtain ⟨i, hi, hlive, hid⟩ := inv.fdt_live f hf hopen
      have hidne : (fdtE s f).i_node_idx ≠ (vi : Int) := by
        rw [← hid]
        exact hnotref i (by omega) hlive
      have hidnn : 1 ≤ (fdtE s f).i_node_idx := by
        rw [← hid]
        exact (inv.live_id i hi hlive).1
      rw [hinodeN2 (fdtE s f).i_node_idx.toNat (by omega)]
      exact inv.fdt_cursor f hf hopen
  · intro f f2 hf hf2 hne hopen hopen2
    by_cases hfvf : f = vf
    · subst hfvf
      rw [hfdtE2vf]
      dsimp only
      rw [hfdtE2 f2 (fun hc => hne hc.symm)] at hopen2 ⊢
      obtain ⟨i, hi, hlive, hid⟩ := inv.fdt_live f2 hf2 hopen2
      rw [← hid]
      intro hc
      exact hnotref i (by omega) hlive hc.symm
    · by_cases hf2vf : f2 = vf
      · subst hf2vf
        rw [hfdtE2vf]
        dsimp only
        rw [hfdtE2 f hfvf] at hopen ⊢
        obtain ⟨i, hi, hlive, hid⟩ := inv.fdt_live f hf hopen
        rw [← hid]
        intro hc
        exact hnotref i (by omega) hlive hc
      · rw [hfdtE2 f hfvf] at hopen ⊢
        rw [hfdtE2 f2 hf2vf] at hopen2 ⊢
        exact inv.fdt_uniq f f2 hf hf2 hne hopen hopen2
  · rw [hbm2]
    rw [inv.account]
    unfold live_nonroot_block_sum
    congr 1
    apply List.map_congr_left
    intro a ha
    rw [List.mem_range] at ha
    by_cases havr : a = vr
    · subst havr
      rw [hdirE2vr]
      dsimp only
      rw [dirE, hvrempty]
      rw [if_neg (by simp)]
      rw [if_pos (by constructor <;> omega)]
      rw [show ((vi : Int)).toNat = vi by omega, hinodeN2vi]
      dsimp only
      rw [calc_zero]
    · rw [hdirE2 a havr]
      by_cases hlv : (dirE s a).i_node_id ≠ -1 ∧ (dirE s a).i_node_id ≠ 0
      · rw [if_pos hlv, if_pos hlv]
        have := hnotref a ha hlv.1
        have hid1 : 1 ≤ (dirE s a).i_node_id := by
          by_cases h198 : a = 198
          · exfalso
            rw [h198] at hlv
            have hp := inv.phantom
            rw [dirE] at hp
            rw [dirE, hp] at hlv
            exact hlv.2 rfl
          · exact (inv.live_id a (by omega) hlv.1).1
        rw [hinodeN2 (dirE s a).i_node_id.toNat (by omega)]
      · rw [if_neg hlv, if_neg hlv]

/-- A file within the direct-block span occupies at most 12 block slots. -/
theorem activeLen_le_12 (nd : i_node) (h0 : 0 ≤ nd.size) (h12 : nd.size ≤ 12 * 1024) :
    activeLen nd ≤ 12 := by
  unfold activeLen
  have h1 := calc_mono nd.size (12 * 1024) h0 h12
  have h2 : calculate_block_length (12 * 1024) = 12 := by decide
  have h3 := calc_bounds nd.size h0
  omega

/-- The state components of sfs_fwrite through an open in-range descriptor,
expressed against the write loop's result. -/
theorem sfs_fwrite_open_eq (s : SfsState) (f : Nat) (buf : Nat → Int) (length : Int)
    (r : SfsState × Int × Int × Int) (hf : f < 199)
    (hopen : ¬ (s.g_fdt.getD f default_fdt_entry).i_node_idx = -1)
    (hr : r = sfs_fwrite_loop s (s.g_fdt.getD f default_fdt_entry).i_node_idx.toNat buf
      length.toNat 0 (s.g_fdt.getD f default_fdt_entry).read_write_pointer
      (s.g_inode_table.getD (s.g_fdt.getD f default_fdt_entry).i_node_idx.toNat
        default_inode).size length 0) :
    (sfs_fwrite s (f : Int) buf length).1.g_root_directory_table = r.1.g_root_directory_table ∧
    (sfs_fwrite s (f : Int) buf length).1.g_fdt =
      r.1.g_fdt.set f
        ⟨((s.g_fdt.getD f default_fdt_entry).i_node_idx.toNat : Int), r.2.1⟩ ∧
    (sfs_fwrite s (f : Int) buf length).1.g_inode_table =
      r.1.g_inode_table.set (s.g_fdt.getD f default_fdt_entry).i_node_idx.toNat
        { r.1.g_inode_table.getD (s.g_fdt.getD f default_fdt_entry).i_node_idx.toNat
            default_inode with size := r.2.2.1 } ∧
    (sfs_fwrite s (f : Int) buf length).1.g_bitmap = r.1.g_bitmap := by
  subst hr
  unfold sfs_fwrite
  simp only [Int.toNat_natCast]
  rw [if_neg (show ¬((f : Int) < 0 ∨ (199 : Int) ≤ (f : Int)) by omega), if_neg hopen]
  exact ⟨rfl, rfl, rfl, rfl⟩

theorem exec_write_inv (s : SfsState) (inv : SfsInv s) (name : String) (len : Nat)
    (hv : op_valid s (.write name len)) : SfsInv (exec_op s (.write name len)) := by
  obtain ⟨hne, hsz, hcap⟩ := hv
  obtain ⟨f, hfd, hf199, hopen, i, hi, hlive, hid, hnamei⟩ :=
    fdt_lookup_some_of_inv s inv name hne
  rw [hfd] at hsz hcap
  simp only [fd_size, Int.toNat_natCast] at hsz hcap
  have hopen' : ¬ (s.g_fdt.getD f default_fdt_entry).i_node_idx = -1 := hopen
  -- identify the target inode index
  have hidraw : (dirE s i).i_node_id = (s.g_fdt.getD f default_fdt_entry).i_node_idx := hid
  have hidb := inv.live_id i hi hlive
  have hidb1 : 1 ≤ (s.g_fdt.getD f default_fdt_entry).i_node_idx := by
    rw [← hidraw]
    exact hidb.1
  have hidb2 : (s.g_fdt.getD f default_fdt_entry).i_node_idx < 200 := by
    rw [← hidraw]
    exact hidb.2
  have hidx1 : 1 ≤ (s.g_fdt.getD f default_fdt_entry).i_node_idx.toNat := by omega
  have hidx200 : (s.g_fdt.getD f default_fdt_entry).i_node_idx.toNat < 200 := by omega
  have hidint : (s.g_fdt.getD f default_fdt_entry).i_node_idx =
      ((s.g_fdt.getD f default_fdt_entry).i_node_idx.toNat : Int) := by omega
  have hitoNat : (dirE s i).i_node_id.toNat =
      (s.g_fdt.getD f default_fdt_entry).i_node_idx.toNat := by rw [hidraw]
  -- shape facts about the target inode
  obtain ⟨hS0nn, hS0le, hind0, hdplen0⟩ := inv.live_node i hi hlive
  rw [hitoNat] at hS0nn hS0le hind0 hdplen0
  have hALs : activeLen (inodeN s (s.g_fdt.getD f default_fdt_entry).i_node_idx.toNat) =
      (calculate_block_length
        (s.g_inode_table.getD (s.g_fdt.getD f default_fdt_entry).i_node_idx.toNat
          default_inode).size).toNat := rfl
  -- the loop relation at entry
  have midInit : WriteMid s s
      (s.g_fdt.getD f default_fdt_entry).i_node_idx.toNat
      (s.g_inode_table.getD (s.g_fdt.getD f default_fdt_entry).i_node_idx.toNat
        default_inode).size
      (s.g_inode_table.getD (s.g_fdt.getD f default_fdt_entry).i_node_idx.toNat
        default_inode).size := by
    refine ⟨rfl, rfl, inv.itab_len, fun m hm => rfl, rfl, hind0, hdplen0,
      fun k hk => rfl, ?_, ?_, ?_, inv.bm_len, fun b hb => hb, by ring⟩
    · intro k hk
      have h2 := inv.live_dp i hi hlive k hk
      rw [hitoNat, hALs] at h2
      exact h2
    · intro k hk1 hk2
      omega
    · intro k l hk hl hkl
      have h3 := inv.blocks_disjoint i i hi hi hlive hlive k l
      rw [hitoNat, hALs] at h3
      exact h3 hk hl (Or.inr hkl)
  -- run the loop
  have hloop := sfs_fwrite_loop_append s
    (s.g_fdt.getD f default_fdt_entry).i_node_idx.toNat (fun _ => (0 : Int)) inv hidx200
    len s 0
    (s.g_inode_table.getD (s.g_fdt.getD f default_fdt_entry).i_node_idx.toNat
      default_inode).size
    (s.g_inode_table.getD (s.g_fdt.getD f default_fdt_entry).i_node_idx.toNat
      default_inode).size
    (len : Int) 0 midInit hS0nn (le_refl _) (by omega) (le_refl _) hsz hcap
  obtain ⟨hmid2, hrptr, hrsize, hrtot⟩ := hloop
  -- the cursor of the open descriptor sits at the size
  have hcur : (s.g_fdt.getD f default_fdt_entry).read_write_pointer =
      (s.g_inode_table.getD (s.g_fdt.getD f default_fdt_entry).i_node_idx.toNat
        default_inode).size := inv.fdt_cursor f hf199 hopen
  obtain ⟨hdirA, hfdtA, hitabA, hbmA⟩ :=
    sfs_fwrite_open_eq s f (fun _ => (0 : Int)) (len : Int)
      (sfs_fwrite_loop s (s.g_fdt.getD f default_fdt_entry).i_node_idx.toNat
        (fun _ => (0 : Int)) len 0
        (s.g_inode_table.getD (s.g_fdt.getD f default_fdt_entry).i_node_idx.toNat
          default_inode).size
        (s.g_inode_table.getD (s.g_fdt.getD f default_fdt_entry).i_node_idx.toNat
          default_inode).size (len : Int) 0)
      hf199 hopen' (by rw [hcur, Int.toNat_natCast])
  rw [hmid2.dir_eq] at hdirA
  rw [hmid2.fdt_eq, hrptr] at hfdtA
  rw [hrsize] at hitabA
  -- fold the goal and the long terms
  show SfsInv (sfs_fwrite s
    (fdt_get_fd_by_filename s.g_root_directory_table s.g_fdt name) (fun _ => (0 : Int))
    (len : Int)).1
  rw [hfd]
  set idx0 := (s.g_fdt.getD f default_fdt_entry).i_node_idx.toNat with hidx0def
  set S0v := (s.g_inode_table.getD idx0 default_inode).size with hS0vdef
  set s1 := (sfs_fwrite_loop s idx0 (fun _ => (0 : Int)) len 0 S0v S0v (len : Int) 0).1
    with hs1def
  set s2 := (sfs_fwrite s (f : Int) (fun _ => (0 : Int)) (len : Int)).1 with hs2def
  have hS0pos : 0 ≤ S0v := hS0nn
  have hidint' : (fdtE s f).i_node_idx = (idx0 : Int) := hidint
  have hidi : (dirE s i).i_node_id = (idx0 : Int) := hidraw.trans hidint
  -- accessors of the final state
  have hdirE2 : ∀ j : Nat, dirE s2 j = dirE s j := by
    intro j
    rw [dirE, dirE, hdirA]
  have hfdtE2f : fdtE s2 f = ⟨(idx0 : Int), S0v + (len : Int)⟩ := by
    rw [fdtE, hfdtA]
    exact getD_set_self _ _ _ _ (by rw [inv.fdt_len]; exact hf199)
  have hfdtE2 : ∀ g : Nat, g ≠ f → fdtE s2 g = fdtE s g := by
    intro g hg
    rw [fdtE, fdtE, hfdtA]
    exact getD_set_ne _ _ _ _ _ (fun hc => hg hc.symm)
  have hinodeN2idx : inodeN s2 idx0 = { inodeN s1 idx0 with size := S0v + (len : Int) } := by
    rw [inodeN, hitabA]
    exact getD_set_self _ _ _ _ (by rw [hmid2.itab_len]; exact hidx200)
  have hinodeN2 : ∀ m : Nat, m ≠ idx0 → inodeN s2 m = inodeN s m := by
    intro m hm
    have h1 : inodeN s2 m = inodeN s1 m := by
      rw [inodeN, inodeN, hitabA]
      exact getD_set_ne _ _ _ _ _ (fun hc => hm hc.symm)
    rw [h1]
    exact hmid2.other_inodes m hm
  have hbm2 : ∀ b : Nat, bmFree s2 b = bmFree s1 b := by
    intro b
    rw [bmFree, bmFree, hbmA]
  have hALeq : activeLen { inodeN s1 idx0 with size := S0v + (len : Int) } =
      (calculate_block_length (S0v + (len : Int))).toNat := rfl
  have hdpeq : ∀ k2 : Nat, dp { inodeN s1 idx0 with size := S0v + (len : Int) } k2 =
      dp (inodeN s1 idx0) k2 := fun k2 => rfl
  -- no other directory entry owns the target inode
  have hotherid : ∀ j : Nat, j < 199 → (dirE s j).i_node_id ≠ -1 → j ≠ i →
      (dirE s j).i_node_id.toNat ≠ idx0 := by
    intro j hj hlivej hji hc
    by_cases h198 : j = 198
    · rw [h198, inv.phantom] at hc
      dsimp only at hc
      omega
    · have hlid := inv.live_id j (by omega) hlivej
      have hne2 := inv.id_uniq j i hj (by omega) hji hlivej hlive
      rw [hidi] at hne2
      omega
  have hfidx : ∀ g : Nat, (fdtE s2 g).i_node_idx = (fdtE s g).i_node_idx := by
    intro g
    by_cases hg : g = f
    · rw [hg, hfdtE2f]
      dsimp only
      rw [hidint']
    · rw [hfdtE2 g hg]
  refine ⟨?_, ?_, ?_, ?_, ?_, ?_, ?_, ?_, ?_, ?_, ?_, ?_, ?_, ?_, ?_, ?_, ?_, ?_, ?_, ?_⟩
  · rw [hitabA]
    simpa [List.length_set] using hmid2.itab_len
  · rw [hdirA]
    exact inv.dir_len
  · rw [hfdtA]
    simpa [List.length_set] using inv.fdt_len
  · rw [hbmA]
    exact hmid2.bm_len
  · intro b hb
    rw [hbm2 b]
    exact hmid2.bm_mono b (inv.meta_occ b hb)
  · rw [hbm2 1023]
    exact hmid2.bm_mono 1023 inv.tail_occ
  · rw [hdirE2 198]
    exact inv.phantom
  · rw [hinodeN2 0 (by omega)]
    exact inv.root0
  · intro m hm hszm
    by_cases hmi : m = idx0
    · exfalso
      rw [hmi, hinodeN2idx] at hszm
      dsimp only at hszm
      omega
    · rw [hinodeN2 m hmi] at hszm ⊢
      exact inv.fresh_shape m hm hszm
  · intro j hj hlivej
    rw [hdirE2 j] at hlivej ⊢
    exact inv.live_id j hj hlivej
  · intro j hj hlivej
    rw [hdirE2 j] at hlivej ⊢
    exact inv.live_name j hj hlivej
  · intro j hj hlivej
    rw [hdirE2 j] at hlivej ⊢
    by_cases hji : j = i
    · subst hji
      rw [hitoNat, hinodeN2idx]
      dsimp only
      refine ⟨by omega, by omega, hmid2.ind_eq, hmid2.dp_len⟩
    · have hne3 := hotherid j (by omega) hlivej hji
      rw [hinodeN2 _ hne3]
      exact inv.live_node j hj hlivej
  · intro j hj hlivej k hk
    rw [hdirE2 j] at hlivej ⊢
    by_cases hji : j = i
    · subst hji
      rw [hitoNat, hinodeN2idx, hALeq, hdpeq k, hbm2 ((dp (inodeN s1 idx0) k).toNat)]
      exact hmid2.dp_active k hk
    · have hne3 := hotherid j (by omega) hlivej hji
      rw [hinodeN2 _ hne3]
      have hld := inv.live_dp j hj hlivej k hk
      refine ⟨fun h2 => ?_, hld.2⟩
      obtain ⟨hx1, hx2, hx3⟩ := hld.1 h2
      refine ⟨hx1, hx2, ?_⟩
      rw [hbm2]
      exact hmid2.bm_mono _ hx3
  · intro j j2 hj hj2 hjj hlivej hlivej2
    rw [hdirE2 j] at hlivej ⊢
    rw [hdirE2 j2] at hlivej2 ⊢
    exact inv.name_uniq j j2 hj hj2 hjj hlivej hlivej2
  · intro j j2 hj hj2 hjj hlivej hlivej2
    rw [hdirE2 j] at hlivej ⊢
    rw [hdirE2 j2] at hlivej2 ⊢
    exact inv.id_uniq j j2 hj hj2 hjj hlivej hlivej2
  · intro j j2 hj hj2 hlivej hlivej2 k l hk hl hkl
    rw [hdirE2 j] at hlivej hk ⊢
    rw [hdirE2 j2] at hlivej2 hl ⊢
    by_cases hji : j = i
    · by_cases hj2i : j2 = i
      · subst hji
        subst hj2i
        rw [hitoNat] at hk hl ⊢
        rw [hinodeN2idx] at hk hl ⊢
        rw [hALeq] at hk hl
        rw [hdpeq k, hdpeq l]
        have hkl2 : k ≠ l := by
          rcases hkl with h | h
          · exact absurd rfl h
          · exact h
        exact hmid2.dp_distinct k l hk hl hkl2
      · subst hji
        have hne3 := hotherid j2 (by omega) hlivej2 hj2i
        rw [hitoNat] at hk ⊢
        rw [hinodeN2idx] at hk ⊢
        rw [hALeq] at hk
        rw [hdpeq k]
        rw [hinodeN2 _ hne3] at hl ⊢
        by_cases hkold : k < (calculate_block_length S0v).toNat
        · rw [hmid2.dp_old k hkold]
          have hbd := inv.blocks_disjoint j j2 hi hj2 hlive hlivej2 k l
            (by rw [hitoNat, hALs]; exact hkold) hl (Or.inl (fun hc => hj2i hc.symm))
          rw [hitoNat] at hbd
          exact hbd
        · have hfree := hmid2.dp_new_free k (by omega) hk
          obtain ⟨h0j, h12j, hindj, hdplj⟩ := inv.live_node j2 hj2 hlivej2
          have hl12 : l < 12 := by
            have hhh := activeLen_le_12 (inodeN s (dirE s j2).i_node_id.toNat) h0j h12j
            omega
          have hld := inv.live_dp j2 hj2 hlivej2 l hl12
          obtain ⟨hy1, hy2, hocc⟩ := hld.1 hl
          intro hc
          rw [hc] at hfree
          rw [hocc] at hfree
          simp at hfree
    · by_cases hj2i : j2 = i
      · subst hj2i
        have hne3 := hotherid j (by omega) hlivej hji
        rw [hitoNat] at hl ⊢
        rw [hinodeN2idx] at hl ⊢
        rw [hALeq] at hl
        rw [hdpeq l]
        rw [hinodeN2 _ hne3] at hk ⊢
        by_cases hlold : l < (calculate_block_length S0v).toNat
        · rw [hmid2.dp_old l hlold]
          have hbd := inv.blocks_disjoint j j2 hj hi hlivej hlive k l hk
            (by rw [hitoNat, hALs]; exact hlold) (Or.inl hji)
          rw [hitoNat] at hbd
          exact hbd
        · have hfree := hmid2.dp_new_free l (by omega) hl
          obtain ⟨h0j, h12j, hindj, hdplj⟩ := inv.live_node j hj hlivej
          have hk12 : k < 12 := by
            have hhh := activeLen_le_12 (inodeN s (dirE s j).i_node_id.toNat) h0j h12j
            omega
          have hld := inv.live_dp j hj hlivej k hk12
          obtain ⟨hy1, hy2, hocc⟩ := hld.1 hk
          intro hc
          rw [hc] at hocc
          rw [hocc] at hfree
          simp at hfree
      · have hne3 := hotherid j (by omega) hlivej hji
        have hne4 := hotherid j2 (by omega) hlivej2 hj2i
        rw [hinodeN2 _ hne3] at hk ⊢
        rw [hinodeN2 _ hne4] at hl ⊢
        exact inv.blocks_disjoint j j2 hj hj2 hlivej hlivej2 k l hk hl hkl
  · intro g hg hopeng
    rw [hfidx g] at hopeng ⊢
    obtain ⟨j, hj, hlivej, hidj⟩ := inv.fdt_live g hg hopeng
    refine ⟨j, hj, ?_, ?_⟩
    · rw [hdirE2 j]
      exact hlivej
    · rw [hdirE2 j]
      exact hidj
  · intro g hg hopeng
    by_cases hgf : g = f
    · subst hgf
      rw [hfdtE2f]
      dsimp only
      rw [Int.toNat_natCast, hinodeN2idx]
    · rw [hfdtE2 g hgf] at hopeng ⊢
      have hcur2 := inv.fdt_cursor g hg hopeng
      rw [hcur2]
      have hneidx : (fdtE s g).i_node_idx.toNat ≠ idx0 := by
        have huq := inv.fdt_uniq g f hg hf199 hgf hopeng hopen
        rw [hidint'] at huq
        obtain ⟨j, hj, hlivej, hidj⟩ := inv.fdt_live g hg hopeng
        have hlj := inv.live_id j hj hlivej
        rw [hidj] at hlj
        omega
      rw [hinodeN2 _ hneidx]
  · intro g g2 hg hg2 hne2 hopeng hopeng2
    rw [hfidx g] at hopeng ⊢
    rw [hfidx g2] at hopeng2 ⊢
    exact inv.fdt_uniq g g2 hg hg2 hne2 hopeng hopeng2
  · have hc1 : count_occupied_data_blocks s2.g_bitmap =
        count_occupied_data_blocks s.g_bitmap +
          (calculate_block_length (S0v + (len : Int)) - calculate_block_length S0v) := by
      rw [show s2.g_bitmap = s1.g_bitmap from hbmA]
      exact hmid2.bm_count
    rw [hc1, inv.account]
    unfold live_nonroot_block_sum
    rw [sum_map_single_diff
      (fun a => if (dirE s2 a).i_node_id ≠ -1 ∧ (dirE s2 a).i_node_id ≠ 0 then
        calculate_block_length ((inodeN s2 (dirE s2 a).i_node_id.toNat).size) else 0)
      (fun a => if (dirE s a).i_node_id ≠ -1 ∧ (dirE s a).i_node_id ≠ 0 then
        calculate_block_length ((inodeN s (dirE s a).i_node_id.toNat).size) else 0)
      i (List.range 199) (List.nodup_range 199)
      (by rw [List.mem_range]; omega)
      (fun x hx hxi => by
        dsimp only
        rw [hdirE2 x]
        by_cases hlv : (dirE s x).i_node_id ≠ -1 ∧ (dirE s x).i_node_id ≠ 0
        · rw [if_pos hlv, if_pos hlv]
          have hx199 : x < 199 := by
            rw [List.mem_range] at hx
            exact hx
          have hneq : (dirE s x).i_node_id.toNat ≠ idx0 := hotherid x hx199 hlv.1 hxi
          rw [hinodeN2 _ hneq]
        · rw [if_neg hlv, if_neg hlv])]
    rw [hdirE2 i, hidi, Int.toNat_natCast, hinodeN2idx]
    rw [if_pos (show ((idx0 : Int) ≠ -1 ∧ (idx0 : Int) ≠ 0) from ⟨by omega, by omega⟩)]
    rw [if_pos (show ((idx0 : Int) ≠ -1 ∧ (idx0 : Int) ≠ 0) from ⟨by omega, by omega⟩)]
    dsimp only
    rw [show (inodeN s idx0).size = S0v from rfl]

/-- The bitmap-release fold preserves the bitmap length. -/
theorem foldl_free_length (bs : List Int) :
    ∀ bm : List Bool, (bs.foldl bitmap_free_a_block bm).length = bm.length := by
  induction bs with
  | nil =>
    intro bm
    rfl
  | cons b bs ih =>
    intro bm
    rw [List.foldl_cons, ih]
    unfold bitmap_free_a_block
    split_ifs
    · rw [List.length_set]
    · rfl

/-- The state components of sfs_remove when the name lookup hits entry j. -/
theorem sfs_remove_some_eq (s : SfsState) (filename : String) (j : Nat)
    (hj : root_get_directory_entry s.g_root_directory_table filename = some j) :
    (sfs_remove s filename).1.g_root_directory_table =
      s.g_root_directory_table.set j ⟨-1, ""⟩ ∧
    (sfs_remove s filename).1.g_inode_table = s.g_inode_table ∧
    (sfs_remove s filename).1.g_fdt =
      (match s.g_fdt.findIdx? (fun e => e.i_node_idx == (dirE s j).i_node_id) with
       | some k => s.g_fdt.set k ⟨-1, -1⟩
       | none => s.g_fdt) ∧
    (sfs_remove s filename).1.g_bitmap =
      (if (inodeN s (dirE s j).i_node_id.toNat).indirect_pointer ≠ -1 then
        free_prefix_blocks
          (free_prefix_blocks s.g_bitmap
            (inodeN s (dirE s j).i_node_id.toNat).direct_pointers)
          (indirect_buffer (s.disk (inodeN s (dirE s j).i_node_id.toNat).indirect_pointer))
      else
        free_prefix_blocks s.g_bitmap
          (inodeN s (dirE s j).i_node_id.toNat).direct_pointers) := by
  unfold sfs_remove
  rw [hj]
  exact ⟨rfl, rfl, rfl, rfl⟩

theorem exec_remove_inv (s : SfsState) (inv : SfsInv s) (name : String)
    (hv : op_valid s (.remove name)) : SfsInv (exec_op s (.remove name)) := by
  obtain ⟨hne, hsome⟩ := hv
  rw [Option.isSome_iff_exists] at hsome
  obtain ⟨j, hj⟩ := hsome
  obtain ⟨hjlen, hlivej, hnamej⟩ := root_lookup_some_spec _ _ _ hj
  rw [inv.dir_len] at hjlen
  have hj198 : j < 198 := by
    rcases Nat.lt_or_ge j 198 with h | h
    · exact h
    · exfalso
      have hj198' : j = 198 := by omega
      rw [hj198'] at hnamej
      have hp : dirE s 198 = ⟨0, ""⟩ := inv.phantom
      rw [dirE] at hp
      rw [hp] at hnamej
      exact hne hnamej.symm
  have hlivej' : (dirE s j).i_node_id ≠ -1 := hlivej
  have hidb := inv.live_id j hj198 hlivej'
  obtain ⟨hsz0, hsz12, hind0, hdplen0⟩ := inv.live_node j hj198 hlivej'
  have hA12 : activeLen (inodeN s (dirE s j).i_node_id.toNat) ≤ 12 :=
    activeLen_le_12 _ hsz0 hsz12
  have hdp := inv.live_dp j hj198 hlivej'
  obtain ⟨hdirA, hitabA, hfdtA, hbmA⟩ := sfs_remove_some_eq s name j hj
  rw [if_neg (show ¬ ((inodeN s (dirE s j).i_node_id.toNat).indirect_pointer ≠ -1) from
    fun hc => hc hind0)] at hbmA
  show SfsInv (sfs_remove s name).1
  set s2 := (sfs_remove s name).1 with hs2def
  -- the removed file's blocks as an explicit list
  have hmap_mem : ∀ b : Int,
      b ∈ (List.range (activeLen (inodeN s (dirE s j).i_node_id.toNat))).map
        (fun m => dp (inodeN s (dirE s j).i_node_id.toNat) m) →
      ∃ m : Nat, m < activeLen (inodeN s (dirE s j).i_node_id.toNat) ∧
        dp (inodeN s (dirE s j).i_node_id.toNat) m = b := by
    intro b hb
    rw [List.mem_map] at hb
    obtain ⟨m, hm, hbm⟩ := hb
    rw [List.mem_range] at hm
    exact ⟨m, hm, hbm⟩
  have hmap_bound : ∀ b ∈ (List.range (activeLen (inodeN s (dirE s j).i_node_id.toNat))).map
      (fun m => dp (inodeN s (dirE s j).i_node_id.toNat) m), 21 ≤ b ∧ b < 1023 := by
    intro b hb
    obtain ⟨m, hm, hbm⟩ := hmap_mem b hb
    obtain ⟨hq1, hq2, hq3⟩ := (hdp m (by omega)).1 hm
    omega
  have hmap_nonneg : ∀ b ∈ (List.range (activeLen (inodeN s (dirE s j).i_node_id.toNat))).map
      (fun m => dp (inodeN s (dirE s j).i_node_id.toNat) m), 0 ≤ b := by
    intro b hb
    have := hmap_bound b hb
    omega
  have hmap_occ : ∀ b ∈ (List.range (activeLen (inodeN s (dirE s j).i_node_id.toNat))).map
      (fun m => dp (inodeN s (dirE s j).i_node_id.toNat) m),
      s.g_bitmap.getD b.toNat false = false := by
    intro b hb
    obtain ⟨m, hm, hbm⟩ := hmap_mem b hb
    obtain ⟨hq1, hq2, hq3⟩ := (hdp m (by omega)).1 hm
    rw [← hbm]
    exact hq3
  have hmap_nodup : ((List.range (activeLen (inodeN s (dirE s j).i_node_id.toNat))).map
      (fun m => dp (inodeN s (dirE s j).i_node_id.toNat) m)).Nodup := by
    refine (List.nodup_range _).map_on ?_
    intro x hx y hy hxy
    rw [List.mem_range] at hx hy
    by_contra hne2
    exact inv.blocks_disjoint j j hj198 hj198 hlivej' hlivej' x y hx hy (Or.inr hne2) hxy
  -- the release walks exactly that list
  have hsplit := List.take_append_drop (activeLen (inodeN s (dirE s j).i_node_id.toNat))
    (inodeN s (dirE s j).i_node_id.toNat).direct_pointers
  have hbs_eq : (inodeN s (dirE s j).i_node_id.toNat).direct_pointers.take
      (activeLen (inodeN s (dirE s j).i_node_id.toNat)) =
      (List.range (activeLen (inodeN s (dirE s j).i_node_id.toNat))).map
        (fun m => dp (inodeN s (dirE s j).i_node_id.toNat) m) := by
    apply List.ext_getElem
    · rw [List.length_take, List.length_map, List.length_range, hdplen0]
      omega
    · intro m h1 h2
      rw [List.length_map, List.length_range] at h2
      rw [List.getElem_take, List.getElem_map, List.getElem_range]
      show _ = dp (inodeN s (dirE s j).i_node_id.toNat) m
      rw [dp, List.getD_eq_getElem _ _ (show m <
        (inodeN s (dirE s j).i_node_id.toNat).direct_pointers.length by rw [hdplen0]; omega)]
  have hbs_ne : ∀ b ∈ (inodeN s (dirE s j).i_node_id.toNat).direct_pointers.take
      (activeLen (inodeN s (dirE s j).i_node_id.toNat)), b ≠ -1 := by
    rw [hbs_eq]
    intro b hb
    have := hmap_bound b hb
    omega
  have hrest : (inodeN s (dirE s j).i_node_id.toNat).direct_pointers.drop
        (activeLen (inodeN s (dirE s j).i_node_id.toNat)) = [] ∨
      ((inodeN s (dirE s j).i_node_id.toNat).direct_pointers.drop
        (activeLen (inodeN s (dirE s j).i_node_id.toNat))).getD 0 0 = -1 := by
    by_cases hAfull : activeLen (inodeN s (dirE s j).i_node_id.toNat) = 12
    · left
      apply List.eq_nil_of_length_eq_zero
      rw [List.length_drop, hdplen0, hAfull]
    · right
      have hlen : 0 < ((inodeN s (dirE s j).i_node_id.toNat).direct_pointers.drop
          (activeLen (inodeN s (dirE s j).i_node_id.toNat))).length := by
        rw [List.length_drop, hdplen0]
        omega
      rw [List.getD_eq_getElem _ _ hlen, List.getElem_drop,
        ← List.getD_eq_getElem (inodeN s (dirE s j).i_node_id.toNat).direct_pointers 0
          (show activeLen (inodeN s (dirE s j).i_node_id.toNat) + 0 <
            (inodeN s (dirE s j).i_node_id.toNat).direct_pointers.length by
              rw [hdplen0]; omega)]
      exact (hdp (activeLen (inodeN s (dirE s j).i_node_id.toNat) + 0) (by omega)).2 (by omega)
  have hfoldl : free_prefix_blocks s.g_bitmap
      (inodeN s (dirE s j).i_node_id.toNat).direct_pointers =
      ((List.range (activeLen (inodeN s (dirE s j).i_node_id.toNat))).map
        (fun m => dp (inodeN s (dirE s j).i_node_id.toNat) m)).foldl
        bitmap_free_a_block s.g_bitmap := by
    conv_lhs => rw [← hsplit]
    rw [free_prefix_eq_foldl _ _ hbs_ne hrest]
    rw [hbs_eq]
  rw [hfoldl] at hbmA
  set BS := (List.range (activeLen (inodeN s (dirE s j).i_node_id.toNat))).map
    (fun m => dp (inodeN s (dirE s j).i_node_id.toNat) m) with hBSdef
  -- pointwise and counting effect on the bitmap
  have hbm2 : ∀ x : Nat, bmFree s2 x =
      (if (x : Int) ∈ BS then (if x < s.g_bitmap.length then true else false)
       else bmFree s x) := by
    intro x
    rw [bmFree, hbmA]
    exact foldl_free_getD BS hmap_nonneg s.g_bitmap x
  have hbm_unch : ∀ x : Nat, (x : Int) ∉ BS → bmFree s2 x = bmFree s x := by
    intro x hx
    rw [hbm2 x, if_neg hx]
  have hcount : count_occupied_data_blocks s2.g_bitmap =
      count_occupied_data_blocks s.g_bitmap - BS.length := by
    rw [show s2.g_bitmap = BS.foldl bitmap_free_a_block s.g_bitmap from hbmA]
    exact foldl_free_count BS s.g_bitmap inv.bm_len hmap_bound hmap_nodup hmap_occ
  have hBSlen : BS.length = activeLen (inodeN s (dirE s j).i_node_id.toNat) := by
    rw [hBSdef, List.length_map, List.length_range]
  have hAint : ((activeLen (inodeN s (dirE s j).i_node_id.toNat)) : Int) =
      calculate_block_length (inodeN s (dirE s j).i_node_id.toNat).size := by
    unfold activeLen
    apply Int.toNat_of_nonneg
    have := calc_bounds (inodeN s (dirE s j).i_node_id.toNat).size hsz0
    omega
  -- the other tables
  have hinodeN2 : ∀ m : Nat, inodeN s2 m = inodeN s m := by
    intro m
    rw [inodeN, inodeN, hitabA]
  have hdirE2j : dirE s2 j = ⟨-1, ""⟩ := by
    rw [dirE, hdirA]
    exact getD_set_self _ _ _ _ (by rw [inv.dir_len]; omega)
  have hdirE2 : ∀ x : Nat, x ≠ j → dirE s2 x = dirE s x := by
    intro x hx
    rw [dirE, dirE, hdirA]
    exact getD_set_ne _ _ _ _ _ (fun hc => hx hc.symm)
  have hfdtlen2 : s2.g_fdt.length = 199 := by
    rw [hfdtA]
    cases hkk : s.g_fdt.findIdx? (fun e => e.i_node_idx == (dirE s j).i_node_id) with
    | none =>
      exact inv.fdt_len
    | some k =>
      simpa [List.length_set] using inv.fdt_len
  have hfdtchar : ∀ g : Nat, g < 199 →
      fdtE s2 g = ⟨-1, -1⟩ ∨
      (fdtE s2 g = fdtE s g ∧ (fdtE s g).i_node_idx ≠ (dirE s j).i_node_id) := by
    intro g hg
    rw [fdtE, hfdtA]
    cases hkk : s.g_fdt.findIdx? (fun e => e.i_node_idx == (dirE s j).i_node_id) with
    | none =>
      dsimp only
      right
      have hpred := findIdx?_none_getD default_fdt_entry hkk g (by rw [inv.fdt_len]; exact hg)
      have h2 : ¬ (s.g_fdt.getD g default_fdt_entry).i_node_idx = (dirE s j).i_node_id := by
        simpa using hpred
      exact ⟨rfl, h2⟩
    | some k =>
      dsimp only
      have hk199 : k < 199 := by
        have := findIdx?_some_lt hkk
        rw [inv.fdt_len] at this
        exact this
      have hkpred : (fdtE s k).i_node_idx = (dirE s j).i_node_id := by
        have h0 := findIdx?_some_getD default_fdt_entry hkk
        simp only [beq_iff_eq] at h0
        exact h0
      by_cases hgk : g = k
      · left
        rw [hgk]
        exact getD_set_self _ _ _ _ (by rw [inv.fdt_len]; exact hk199)
      · right
        refine ⟨?_, ?_⟩
        · rw [fdtE]
          exact getD_set_ne _ _ _ _ _ (fun hc => hgk hc.symm)
        · intro hc
          have hopeng : (fdtE s g).i_node_idx ≠ -1 := by
            rw [hc]
            exact hlivej'
          have hopenk : (fdtE s k).i_node_idx ≠ -1 := by
            rw [hkpred]
            exact hlivej'
          exact inv.fdt_uniq g k hg hk199 hgk hopeng hopenk (by rw [hc, hkpred])
  refine ⟨?_, ?_, ?_, ?_, ?_, ?_, ?_, ?_, ?_, ?_, ?_, ?_, ?_, ?_, ?_, ?_, ?_, ?_, ?_, ?_⟩
  · rw [hitabA]
    exact inv.itab_len
  · rw [hdirA]
    simpa [List.length_set] using inv.dir_len
  · exact hfdtlen2
  · rw [show s2.g_bitmap = BS.foldl bitmap_free_a_block s.g_bitmap from hbmA,
      foldl_free_length]
    exact inv.bm_len
  · intro b hb
    rw [hbm_unch b (fun hc => by have h2 := hmap_bound _ hc; omega)]
    exact inv.meta_occ b hb
  · rw [hbm_unch 1023 (fun hc => by have h2 := hmap_bound _ hc; omega)]
    exact inv.tail_occ
  · rw [hdirE2 198 (by omega)]
    exact inv.phantom
  · rw [hinodeN2 0]
    exact inv.root0
  · intro m hm hszm
    rw [hinodeN2 m] at hszm ⊢
    exact inv.fresh_shape m hm hszm
  · intro x hx hlx
    by_cases hxj : x = j
    · exfalso
      rw [hxj, hdirE2j] at hlx
      exact hlx rfl
    · rw [hdirE2 x hxj] at hlx ⊢
      exact inv.live_id x hx hlx
  · intro x hx hlx
    by_cases hxj : x = j
    · exfalso
      rw [hxj, hdirE2j] at hlx
      exact hlx rfl
    · rw [hdirE2 x hxj] at hlx ⊢
      exact inv.live_name x hx hlx
  · intro x hx hlx
    by_cases hxj : x = j
    · exfalso
      rw [hxj, hdirE2j] at hlx
      exact hlx rfl
    · rw [hdirE2 x hxj] at hlx ⊢
      rw [hinodeN2 ((dirE s x).i_node_id.toNat)]
      exact inv.live_node x hx hlx
  · intro x hx hlx k hk
    by_cases hxj : x = j
    · exfalso
      rw [hxj, hdirE2j] at hlx
      exact hlx rfl
    · rw [hdirE2 x hxj] at hlx ⊢
      rw [hinodeN2 ((dirE s x).i_node_id.toNat)]
      have hld := inv.live_dp x hx hlx k hk
      refine ⟨fun h2 => ?_, hld.2⟩
      obtain ⟨hx1, hx2, hx3⟩ := hld.1 h2
      refine ⟨hx1, hx2, ?_⟩
      have hnm : ((dp (inodeN s (dirE s x).i_node_id.toNat) k).toNat : Int) ∉ BS := by
        rw [Int.toNat_of_nonneg (show 0 ≤ dp (inodeN s (dirE s x).i_node_id.toNat) k by omega)]
        intro hc
        obtain ⟨m, hm, hbm⟩ := hmap_mem _ hc
        exact inv.blocks_disjoint j x hj198 hx hlivej' hlx m k hm h2
          (Or.inl (fun hcc => hxj hcc.symm)) hbm
      rw [hbm_unch _ hnm]
      exact hx3
  · intro x y hx hy hxy hlx hly
    by_cases hxj : x = j
    · exfalso
      rw [hxj, hdirE2j] at hlx
      exact hlx rfl
    · by_cases hyj : y = j
      · exfalso
        rw [hyj, hdirE2j] at hly
        exact hly rfl
      · rw [hdirE2 x hxj] at hlx ⊢
        rw [hdirE2 y hyj] at hly ⊢
        exact inv.name_uniq x y hx hy hxy hlx hly
  · intro x y hx hy hxy hlx hly
    by_cases hxj : x = j
    · exfalso
      rw [hxj, hdirE2j] at hlx
      exact hlx rfl
    · by_cases hyj : y = j
      · exfalso
        rw [hyj, hdirE2j] at hly
        exact hly rfl
      · rw [hdirE2 x hxj] at hlx ⊢
        rw [hdirE2 y hyj] at hly ⊢
        exact inv.id_uniq x y hx hy hxy hlx hly
  · intro x y hx hy hlx hly k l hk hl hkl
    by_cases hxj : x = j
    · exfalso
      rw [hxj, hdirE2j] at hlx
      exact hlx rfl
    · by_cases hyj : y = j
      · exfalso
        rw [hyj, hdirE2j] at hly
        exact hly rfl
      · rw [hdirE2 x hxj] at hlx hk ⊢
        rw [hdirE2 y hyj] at hly hl ⊢
        rw [hinodeN2 ((dirE s x).i_node_id.toNat)] at hk ⊢
        rw [hinodeN2 ((dirE s y).i_node_id.toNat)] at hl ⊢
        exact inv.blocks_disjoint x y hx hy hlx hly k l hk hl hkl
  · intro g hg hopeng
    rcases hfdtchar g hg with h | ⟨heq, hnid⟩
    · rw [h] at hopeng
      exact absurd rfl hopeng
    · rw [heq] at hopeng ⊢
      obtain ⟨i2, hi2, hlive2, hid2⟩ := inv.fdt_live g hg hopeng
      have hij : i2 ≠ j := by
        intro hc
        rw [hc] at hid2
        exact hnid hid2.symm
      refine ⟨i2, hi2, ?_, ?_⟩
      · rw [hdirE2 i2 hij]
        exact hlive2
      · rw [hdirE2 i2 hij]
        exact hid2
  · intro g hg hopeng
    rcases hfdtchar g hg with h | ⟨heq, hnid⟩
    · rw [h] at hopeng
      exact absurd rfl hopeng
    · rw [heq] at hopeng ⊢
      rw [hinodeN2 ((fdtE s g).i_node_idx.toNat)]
      exact inv.fdt_cursor g hg hopeng
  · intro g g2 hg hg2 hne2 hopeng hopeng2
    rcases hfdtchar g hg with h | ⟨heq, hnid⟩
    · rw [h] at hopeng
      exact absurd rfl hopeng
    · rcases hfdtchar g2 hg2 with h2 | ⟨heq2, hnid2⟩
      · rw [h2] at hopeng2
        exact absurd rfl hopeng2
      · rw [heq] at hopeng ⊢
        rw [heq2] at hopeng2 ⊢
        exact inv.fdt_uniq g g2 hg hg2 hne2 hopeng hopeng2
  · rw [hcount, hBSlen, inv.account]
    unfold live_nonroot_block_sum
    rw [sum_map_single_diff
      (fun a => if (dirE s2 a).i_node_id ≠ -1 ∧ (dirE s2 a).i_node_id ≠ 0 then
        calculate_block_length ((inodeN s2 (dirE s2 a).i_node_id.toNat).size) else 0)
      (fun a => if (dirE s a).i_node_id ≠ -1 ∧ (dirE s a).i_node_id ≠ 0 then
        calculate_block_length ((inodeN s (dirE s a).i_node_id.toNat).size) else 0)
      j (List.range 199) (List.nodup_range 199)
      (by rw [List.mem_range]; omega)
      (fun x hx hxj => by
        dsimp only
        rw [hdirE2 x hxj, hinodeN2 ((dirE s x).i_node_id.toNat)])]
    rw [hdirE2j]
    dsimp only
    rw [if_neg (by simp)]
    rw [if_pos (show (dirE s j).i_node_id ≠ -1 ∧ (dirE s j).i_node_id ≠ 0 from
      ⟨hlivej', by omega⟩)]
    rw [← hAint]
    ring

/-- The bitmap of a freshly formatted file system: metadata blocks 0..20 and
the bitmap block 1023 occupied, the 1002 data blocks free. -/
theorem fresh_bitmap_eq : fresh_state.g_bitmap =
    List.replicate 21 false ++ List.replicate 1002 true ++ [false] := by decide

/-- Every data-region bit of the fresh bitmap is free. -/
theorem fresh_bitmap_free : ∀ b : Nat, 21 ≤ b → b < 1023 →
    fresh_state.g_bitmap.getD b false = true := by
  intro b h1 h2
  rw [fresh_bitmap_eq, List.append_assoc]
  rw [List.getD_append_right _ _ _ _ (by simp; omega)]
  rw [List.getD_append _ _ _ _ (by simp; omega)]
  rw [List.getD_eq_getElem _ _ (by simp; omega)]
  rw [List.getElem_replicate]

/-- A bitmap whose data region is entirely free has no occupied data block. -/
theorem count_occupied_all_free (bm : List Bool)
    (h : ∀ b : Nat, 21 ≤ b → b < 1023 → bm.getD b false = true) :
    count_occupied_data_blocks bm = 0 := by
  unfold count_occupied_data_blocks
  have hmap : (List.range' 21 1002).map (fun b => if bm.getD b false then (0 : Int) else 1) =
      (List.range' 21 1002).map (fun _ => (0 : Int)) := by
    apply List.map_congr_left
    intro a ha
    rw [mem_range'_1] at ha
    rw [h a (by omega) (by omega)]
    norm_num
  rw [hmap]
  rw [show (List.range' 21 1002).map (fun _ => (0 : Int)) =
    List.replicate (List.range' 21 1002).length 0 from List.map_const' _ 0]
  rw [List.sum_replicate]
  simp

/-- In a freshly formatted file system no directory entry below the phantom
slot is occupied. -/
theorem fresh_dir_live : ∀ i : Nat, i < 198 → (dirE fresh_state i).i_node_id = -1 := by decide

/-- In a freshly formatted file system every descriptor is closed. -/
theorem fresh_fdt_closed : ∀ f : Nat, f < 199 → (fdtE fresh_state f).i_node_idx = -1 := by
  decide

set_option maxHeartbeats 4000000 in
/-- The freshly formatted file system satisfies the accounting invariant. -/
theorem fresh_state_inv : SfsInv fresh_state := by
  refine ⟨?_, ?_, ?_, ?_, ?_, ?_, ?_, ?_, ?_, ?_, ?_, ?_, ?_, ?_, ?_, ?_, ?_, ?_, ?_, ?_⟩
  · decide
  · decide
  · decide
  · decide
  · decide
  · decide
  · decide
  · decide
  · decide
  · intro i hi hlive
    exact absurd (fresh_dir_live i hi) hlive
  · intro i hi hlive
    exact absurd (fresh_dir_live i hi) hlive
  · intro i hi hlive
    exact absurd (fresh_dir_live i hi) hlive
  · intro i hi hlive
    exact absurd (fresh_dir_live i hi) hlive
  · intro i j hi hj hij hlivei hlivej
    exact absurd (fresh_dir_live i hi) hlivei
  · intro i j hi hj hij hlivei hlivej
    by_cases hi198 : i = 198
    · exact absurd (fresh_dir_live j (by omega)) hlivej
    · exact absurd (fresh_dir_live i (by omega)) hlivei
  · intro i j hi hj hlivei hlivej
    exact absurd (fresh_dir_live i hi) hlivei
  · intro f hf hopen
    exact absurd (fresh_fdt_closed f hf) hopen
  · intro f hf hopen
    exact absurd (fresh_fdt_closed f hf) hopen
  · intro f f2 hf hf2 hne hopen hopen2
    exact absurd (fresh_fdt_closed f hf) hopen
  · have h1 : count_occupied_data_blocks fresh_state.g_bitmap = 0 :=
      count_occupied_all_free _ fresh_bitmap_free
    have h2 : live_nonroot_block_sum fresh_state = 0 := by decide
    rw [h1, h2]

/-- The invariant is preserved along any valid operation sequence. -/
theorem exec_ops_inv : ∀ (ops : List FsOp) (s : SfsState), SfsInv s → ops_valid s ops →
    SfsInv (exec_ops s ops) := by
  intro ops
  induction ops with
  | nil =>
    intro s hs _
    exact hs
  | cons op rest ih =>
    intro s hs hv
    obtain ⟨hop, hrest⟩ := hv
    have h2 : SfsInv (exec_op s op) := by
      cases op with
      | create nm => exact exec_create_inv s hs nm hop
      | write nm len => exact exec_write_inv s hs nm len hop
      | remove nm => exact exec_remove_inv s hs nm hop
    exact ih (exec_op s op) h2 hrest

/-- C4: along every valid create/write/remove sequence from a fresh format,
the number of occupied data-region blocks equals the sum of
ceil(size / block_size) over the live non-root inodes (the root directory
inode's blocks live in the metadata region and are excluded). -/
theorem block_accounting (ops : List FsOp) (hv : ops_valid fresh_state ops) :
    count_occupied_data_blocks (exec_ops fresh_state ops).g_bitmap =
      live_nonroot_block_sum (exec_ops fresh_state ops) :=
  (exec_ops_inv ops fresh_state fresh_state_inv hv).account

theorem block_accounting_witness :
    ops_valid fresh_state [FsOp.create "a", FsOp.remove "a"] ∧
    count_occupied_data_blocks
      (exec_ops fresh_state [FsOp.create "a", FsOp.remove "a"]).g_bitmap =
      live_nonroot_block_sum (exec_ops fresh_state [FsOp.create "a", FsOp.remove "a"]) :=
  ⟨by simp only [ops_valid, op_valid]; decide,
   block_accounting [FsOp.create "a", FsOp.remove "a"] (by simp only [ops_valid, op_valid]; decide)⟩

/-- The literal reading of C4 (every live inode, the root directory inode
included) fails already at the empty sequence: the fresh data region has no
occupied block, while the root inode's 4776 directory bytes account for 5
blocks. -/
theorem block_accounting_literal_counterexample :
    count_occupied_data_blocks (exec_ops fresh_state []).g_bitmap = 0 ∧
    live_block_sum (exec_ops fresh_state []) = 5 := by
  constructor
  · exact count_occupied_all_free _ fresh_bitmap_free
  · decide

end SFS
